import Mathlib

/-!
# codebook-cache: reload controller, snapshot store and configuration checks

A shallow embedding of `cache.go`, `timeouts.go`, `params.go` and
`internal/aggregator/simple_aggregator.go`.

Conventions of the embedding

* `time.Time` and `time.Duration` are integers counting nanoseconds (`Time`, `Duration`);
  the code only compares them and adds a duration to a time.
* `float64` configuration values (`Ranomizer`) are taken as exact rationals.
* a Go pointer `*T` is `Ptr T = Option T`, `none` being `nil`.
* a Go `map[K]*T` is a finite lookup function `K → Option (Ptr T)`.
* impure inputs are explicit: the clock reading of `time.Now()`, the random draw used by
  `utils.RandomizeDuration`, and the loader, which is the stream of the results of its
  successive invocations together with the counter `loaderCalls` kept in the cache state.
* a buffered channel is its queue together with its `closed` flag; a send either completes,
  parks the sender, or panics.
* logging and the write-only prometheus gauges and counters are left out: no code path reads them.
* the aggregator is also run on a time line (`Timeline`) on which each waiting
  `startAggregationTimer` fires exactly at its deadline, before a `Notify` of the same instant.
* the goroutine of the periodic driver (`Driver`) advances by iterations of its loop, the
  case picked by its `select` being an input.
-/

namespace Codebook

/-! ## Basic types -/

/-- Instants of `time.Time`, in nanoseconds. -/
abbrev Time := Int

/-- Values of `time.Duration`: a signed count of nanoseconds. -/
abbrev Duration := Int

/-- Go pointers: `none` is `nil`. -/
abbrev Ptr (T : Type) := Option T

/-- One second, `time.Second`. -/
def Second : Duration := 1000000000

/-- One millisecond, `time.Millisecond`. -/
def Millisecond : Duration := 1000000

/-- The error values created by the package (`errors.New` with the message given by
`Error.message`) and the errors coming from collaborators (`other`). -/
inductive Error where
  | alreadyReloading
  | cannotReloadYet
  | reloadDelayTooLong
  | ranomizerNegative
  | ranomizerTooBig
  | contextMissing
  | nameMissing
  | loadAllFuncMissing
  | natsMissing
  | emptyMessages
  | other (msg : String)
  deriving DecidableEq, Repr

/-- The text passed to `errors.New` for each error of the package. -/
def Error.message : Error → String
  | .alreadyReloading => "already reloading"
  | .cannotReloadYet => "cannot reload yet"
  | .reloadDelayTooLong => "ReloadDelay must be less than or equal to ReloadInterval"
  | .ranomizerNegative => "Ranomizer cannot be negative"
  | .ranomizerTooBig => "Ranomizer cannot be greater than 1"
  | .contextMissing => "context must be set"
  | .nameMissing => "name must be set"
  | .loadAllFuncMissing => "LoadAllFunc must be provided"
  | .natsMissing => "no nats connection specified"
  | .emptyMessages => "empty invalidation messages"
  | .other msg => msg

/-! ## timeouts.go -/

/-- The struct `Timeouts`. -/
structure Timeouts where
  ReloadInterval : Duration
  ReloadDelay : Duration
  Ranomizer : ℚ
  deriving DecidableEq

/-- The method `(*Timeouts).check`; `none` is the `nil` error. -/
def Timeouts.check (t : Timeouts) : Option Error :=
  if t.ReloadDelay > t.ReloadInterval then
    some .reloadDelayTooLong
  else if t.Ranomizer < 0 then
    some .ranomizerNegative
  else if t.Ranomizer > 1 then
    some .ranomizerTooBig
  else
    none

/-! ## params.go -/

/-- The struct `Invalidations`: whether the NATS connection pointer is set, the subject
prefix, and the subjects of the `Messages` map. -/
structure Invalidations where
  Nats : Bool
  subjectPrefix : String
  Messages : List String

/-- The method `(*Invalidations).check`. -/
def Invalidations.check (i : Invalidations) : Option Error :=
  if i.Nats = false then
    some .natsMissing
  else if i.Messages.length = 0 then
    some .emptyMessages
  else
    none

/-- A snapshot, the Go value `map[K]*T`: `m k = none` when `k` is not a key of the map. -/
abbrev Entries (K T : Type) := K → Option (Ptr T)

/-- The Go index expression `m[k]`: the zero value `nil` for a key that is not in the map. -/
def Entries.index {K T : Type} (m : Entries K T) (k : K) : Ptr T :=
  match m k with
  | none => none
  | some entry => entry

/-- What one invocation of a `LoadAllFunc` returns: `(entries, err)`. -/
structure LoadResult (K T : Type) where
  entries : Entries K T
  err : Option Error

/-- The type `LoadAllFunc`: the results of its successive invocations. -/
abbrev LoadAllFunc (K T : Type) := Nat → LoadResult K T

/-- The struct `Params`. `Context` tells whether the context is non-nil, `MetricsRegistry`
whether a registry is given. -/
structure Params (K T : Type) where
  Context : Bool
  MetricsRegistry : Bool
  Invalidations : Option Invalidations
  Name : String
  LoadAllFunc : Option (LoadAllFunc K T)
  Timeouts : Timeouts
  MemsizeEnabled : Bool

/-- The method `(*Params).check`. -/
def Params.check {K T : Type} (p : Params K T) : Option Error :=
  if p.Context = false then
    some .contextMissing
  else if p.Name = "" then
    some .nameMissing
  else if p.LoadAllFunc.isNone then
    some .loadAllFuncMissing
  else
    match p.Timeouts.check with
    | some err => some err
    | none =>
      match p.Invalidations with
      | some i => i.check
      | none => none

/-! ## internal/utils (not among the sources) -/

/-- Modelled from the spec: the random draw of `utils.RandomizeDuration`, read in `[-1, 1]`
(the sign and the fraction of the `±` of the spec). -/
def clampUnit (u : ℚ) : ℚ := max (-1) (min 1 u)

/-- Modelled from the spec: conversion of the fractional number of nanoseconds computed by
`utils.RandomizeDuration` to `time.Duration`; the fraction is dropped (rounding toward zero),
as Go does when converting a `float64` to an integer type. -/
def truncDuration (x : ℚ) : Duration := if 0 ≤ x then ⌊x⌋ else ⌈x⌉

/-- Modelled from the spec: `utils.RandomizeDuration`, whose package `internal/utils` is
missing. The spec gives the result as `interval ± (interval × jitterFraction)`, re-randomized
at every computation; the random draw is the explicit argument `u`, read in `[-1, 1]`. -/
def RandomizeDuration (d : Duration) (randomizer : ℚ) (u : ℚ) : Duration :=
  d + truncDuration ((d : ℚ) * randomizer * clampUnit u)

/-! ## internal/aggregator/simple_aggregator.go -/

/-- The struct `SimpleAggregator`. Its effects are recorded in two extra fields: `timers`,
the durations of the started `startAggregationTimer` goroutines that have not ended, and
`actions`, the number of invocations of `aggregatedFunc`. -/
structure SimpleAggregator where
  flushInterval : Duration
  blockUntilMillis : Int
  queued : Bool
  timers : List Duration
  actions : Nat
  deriving DecidableEq

/-- The constructor `NewSimpleAggregator`. -/
def NewSimpleAggregator (flushInterval : Duration) : SimpleAggregator :=
  { flushInterval := flushInterval, blockUntilMillis := 0, queued := false,
    timers := [], actions := 0 }

/-- The method `Duration.Milliseconds`: integer division truncating toward zero. -/
def Duration.Milliseconds (d : Duration) : Int := Int.tdiv d 1000000

/-- How the `select` of `startAggregationTimer` ends: the wait has elapsed, and
`time.Now().UnixMilli()` then reads `nowMillis`; or the context was cancelled first. -/
inductive Wake where
  | elapsed (nowMillis : Int)
  | cancelled
  deriving DecidableEq

/-- The value in `int64` of an arithmetic expression whose exact result is `x`: Go wraps
around modulo `2^64`. -/
def wrapInt64 (x : Int) : Int :=
  (x + 9223372036854775808) % 18446744073709551616 - 9223372036854775808

/-- The method `Time.UnixMilli` of an instant given in nanoseconds: the whole milliseconds,
rounded down. -/
def UnixMilli (t : Time) : Int := t / 1000000

/-- The method `Notify`; `nowMillis` is the reading of `time.Now().UnixMilli()`. The `go`
statements are recorded: `go a.aggregatedFunc()` adds one to `actions`, and
`go a.startAggregationTimer(d)` appends `d` to `timers`. The difference and the product of
`flushAfterDuration` are `int64` operations and wrap around: the product does as soon as
`blockUntilMillis - nowMillis` exceeds 9223372036854 milliseconds (about 292 years). The sum
`nowMillis + Milliseconds` is exact: `Milliseconds` is at most 9223372036854, and the clock
reading lies within 292 million years of 1970. -/
def SimpleAggregator.Notify (a : SimpleAggregator) (nowMillis : Int) : SimpleAggregator :=
  let blockUntilMillis := a.blockUntilMillis
  if blockUntilMillis = 0 ∨ blockUntilMillis ≤ nowMillis then
    { a with blockUntilMillis := nowMillis + Duration.Milliseconds a.flushInterval
             actions := a.actions + 1 }
  else
    let wasQueued := a.queued
    let a1 := { a with queued := true }
    if wasQueued then
      a1
    else
      let flushAfterDuration := wrapInt64 (wrapInt64 (blockUntilMillis - nowMillis) * Millisecond)
      { a1 with timers := a1.timers ++ [flushAfterDuration] }

/-- The method `startAggregationTimer`, from the moment its `select` ends. The goroutine
ends with it, so its `duration` leaves `timers`; the synchronous call of `aggregatedFunc`
adds one to `actions`. The sum is exact, as in `Notify`. -/
def SimpleAggregator.startAggregationTimer (a : SimpleAggregator) (duration : Duration)
    (w : Wake) : SimpleAggregator :=
  match w with
  | .elapsed nowMillis =>
    { a with blockUntilMillis := nowMillis + Duration.Milliseconds a.flushInterval
             queued := false
             actions := a.actions + 1
             timers := a.timers.erase duration }
  | .cancelled => { a with timers := a.timers.erase duration }

/-! ### The aggregator on a time line -/

/-- A goroutine waiting in `startAggregationTimer`: the instant (in nanoseconds) at which
its `time.After(duration)` elapses, and its `duration`. -/
structure Sleeper where
  deadline : Time
  duration : Duration
  deriving DecidableEq

/-- An aggregator together with its waiting goroutines and the instants (in nanoseconds,
latest first) at which `aggregatedFunc` was invoked. -/
structure Timeline where
  agg : SimpleAggregator
  sleepers : List Sleeper
  log : List Time
  deriving DecidableEq

/-- The time line of a new aggregator. -/
def Timeline.fresh (flushInterval : Duration) : Timeline :=
  { agg := NewSimpleAggregator flushInterval, sleepers := [], log := [] }

/-- The wait of the sleeper `s` elapses, exactly at its deadline; the clock reading of
`startAggregationTimer` is the millisecond of that instant. -/
def Timeline.wake (tl : Timeline) (s : Sleeper) : Timeline :=
  let a1 := tl.agg.startAggregationTimer s.duration (.elapsed (UnixMilli s.deadline))
  { agg := a1
    sleepers := tl.sleepers.erase s
    log := List.replicate (a1.actions - tl.agg.actions) s.deadline ++ tl.log }

/-- Those of the listed sleepers whose deadline is not after `t` wake, in order. -/
def Timeline.wakeList (tl : Timeline) (t : Time) : List Sleeper → Timeline
  | [] => tl
  | s :: rest =>
    if s.deadline ≤ t then Timeline.wakeList (tl.wake s) t rest
    else Timeline.wakeList tl t rest

/-- Every wake-up due at or before the instant `t` has fired. -/
def Timeline.wakeUntil (tl : Timeline) (t : Time) : Timeline := tl.wakeList t tl.sleepers

/-- A call of `Notify` at the instant `t` (in nanoseconds), after the wake-ups due at or
before `t`. `Notify` reads the clock in whole milliseconds; the goroutines and invocations it
started are read off `timers` and `actions`, and a started `startAggregationTimer` waits
from the instant `t` itself, so its `time.After(d)` elapses at `t + d`, and at once when `d`
is not positive. -/
def Timeline.notify (tl : Timeline) (t : Time) : Timeline :=
  let tl1 := tl.wakeUntil t
  let a1 := tl1.agg.Notify (UnixMilli t)
  { agg := a1
    sleepers := tl1.sleepers ++
      (a1.timers.drop tl1.agg.timers.length).map (fun d => { deadline := t + max d 0, duration := d })
    log := List.replicate (a1.actions - tl1.agg.actions) t ++ tl1.log }

/-- The instants of the listed whole milliseconds. -/
def wholeMillis (times : List Int) : List Time := times.map (fun t => t * Millisecond)

/-- Calls of `Notify` at the listed instants, in order. -/
def Timeline.run (tl : Timeline) : List Time → Timeline
  | [] => tl
  | t :: rest => Timeline.run (tl.notify t) rest

/-- The context is cancelled at the instant `t`: the wake-ups due at or before `t` have
fired, every other waiting goroutine leaves its `select` through `ctx.Done()`. -/
def Timeline.cancel (tl : Timeline) (t : Time) : Timeline :=
  let tl1 := tl.wakeUntil t
  let a1 := tl1.sleepers.foldl (fun a s => a.startAggregationTimer s.duration .cancelled) tl1.agg
  { agg := a1
    sleepers := []
    log := List.replicate (a1.actions - tl1.agg.actions) t ++ tl1.log }

/-- The number of invocations of `aggregatedFunc` up to the instant `t` included. -/
def Timeline.countAt (tl : Timeline) (t : Time) : Nat := (tl.wakeUntil t).log.length

/-- A protection window is active for a call of `Notify` at the instant `t`:
`blockUntilMillis` is set and lies after the millisecond of `t`. -/
def Timeline.windowActive (tl : Timeline) (t : Time) : Prop :=
  ¬ (tl.agg.blockUntilMillis = 0 ∨ tl.agg.blockUntilMillis ≤ UnixMilli t)

instance (tl : Timeline) (t : Time) : Decidable (tl.windowActive t) := by
  unfold Timeline.windowActive
  infer_instance

/-- Two consecutive entries of a log (latest first) are at least `gap` apart. -/
def spaced (gap : Int) (later earlier : Int) : Prop := earlier + gap ≤ later

instance (gap later earlier : Int) : Decidable (spaced gap later earlier) := by
  unfold spaced
  infer_instance

/-- The shape of a time line on which every call of `Notify` so far came at a whole
millisecond, at or before the millisecond `now`, for a flush interval of `flushMs`
milliseconds: either nothing happened yet, or the window ends `flushMs` after the
millisecond `last` of the latest invocation, and the pending flag is set exactly when one
goroutine waits, for the end of that window. -/
def Timeline.Settled (flushMs now : Int) (tl : Timeline) : Prop :=
  tl.agg.flushInterval = flushMs * Millisecond ∧
  List.Chain' (spaced (flushMs * Millisecond)) tl.log ∧
  ((tl.agg.blockUntilMillis = 0 ∧ tl.log = [] ∧ tl.sleepers = [] ∧ tl.agg.queued = false) ∨
    ∃ last rest, tl.log = (last * Millisecond) :: rest ∧ 0 ≤ last ∧ last ≤ now ∧
      tl.agg.blockUntilMillis = last + flushMs ∧
      ((tl.agg.queued = false ∧ tl.sleepers = []) ∨
        (tl.agg.queued = true ∧
          ∃ d, tl.sleepers = [{ deadline := (last + flushMs) * Millisecond, duration := d }])))

/-! ## cache.go -/

/-- A channel `chan bool`: the queued values and whether it has been closed. -/
structure Chan where
  buf : List Bool
  closed : Bool
  deriving DecidableEq

/-- The capacity given in `make(chan bool, 1)`. -/
def reloadChanCap : Nat := 1

/-- The channel right after `make(chan bool, 1)`. -/
def Chan.make : Chan := { buf := [], closed := false }

/-- What a send statement does. -/
inductive SendOutcome where
  | sent (ch : Chan)
  | blocks
  | panics
  deriving DecidableEq

/-- The statement `ch <- v` on a channel of capacity `reloadChanCap` on which nobody is
receiving at that moment: a send on a closed channel panics, a send on a full buffer parks the
sender. -/
def Chan.send (ch : Chan) (v : Bool) : SendOutcome :=
  if ch.closed then .panics
  else if ch.buf.length < reloadChanCap then .sent { ch with buf := ch.buf ++ [v] }
  else .blocks

/-- The struct `Cache`. `data = none` is the `atomic.Value` in which nothing was stored.
`loaderCalls` counts the invocations of `loadAllFunc`, `memSizeJobs` the started
`updateMemSize` goroutines. -/
structure Cache (K T : Type) where
  timeouts : Timeouts
  loadAllFunc : LoadAllFunc K T
  reloadChan : Chan
  aggregator : Option SimpleAggregator
  memSizeEnabled : Bool
  hasMetrics : Bool
  data : Option (Entries K T)
  isReloading : Bool
  nextReload : Option Time
  loaderCalls : Nat
  memSizeJobs : Nat

variable {K T : Type}

/-- The method `GetAll`: `c.data.Load().(map[K]*T)`. The type assertion panics (`none`) when
nothing was ever stored. -/
def Cache.GetAll (c : Cache K T) : Option (Entries K T) := c.data

/-- The method `Get`; the outer `none` is the panic inherited from `GetAll`. -/
def Cache.Get (c : Cache K T) (ID : K) : Option (Ptr T) :=
  match c.GetAll with
  | none => none
  | some entries =>
    match entries ID with
    | none => some none
    | some entry => some entry

/-- The method `setLoading`: the state after the call and the returned error. -/
def Cache.setLoading (c : Cache K T) (start : Time) (force : Bool) :
    Cache K T × Option Error :=
  if c.isReloading then
    (c, some .alreadyReloading)
  else if !force && (match c.nextReload with
      | some next => decide (start < next)
      | none => false) then
    (c, some .cannotReloadYet)
  else
    ({ c with isReloading := true }, none)

/-- Lines 206-212 of `reload`: the loader is invoked, and its result is stored when it
reports no error. -/
def Cache.load (c : Cache K T) : Cache K T × LoadResult K T :=
  let r := c.loadAllFunc c.loaderCalls
  let c1 := { c with loaderCalls := c.loaderCalls + 1 }
  match r.err with
  | none =>
    ({ c1 with data := some r.entries,
               memSizeJobs := if c1.memSizeEnabled then c1.memSizeJobs + 1 else c1.memSizeJobs },
     r)
  | some _ => (c1, r)

/-- Lines 227-232 of `reload`: the local `newNextReloadTime`. -/
def Cache.newNextReloadTime (c : Cache K T) (start : Time) (u : ℚ) : Option Time :=
  if c.timeouts.ReloadInterval > 0 then
    some (start + RandomizeDuration c.timeouts.ReloadInterval c.timeouts.Ranomizer u)
  else
    none

/-- Lines 235-240 of `reload`: the critical section that ends the attempt. -/
def Cache.endReload (c : Cache K T) (newNext : Option Time) : Cache K T :=
  { c with isReloading := false,
           nextReload := match newNext with
             | some t => some t
             | none => c.nextReload }

/-- How a call of `reload` ends: it returns `err`; or it is parked at `c.reloadChan <- true`
(and returns `err` once the driver receives); or that send panics. -/
inductive Exit where
  | returned (err : Option Error)
  | blockedOnSend (err : Option Error)
  | panicked
  deriving DecidableEq

/-- The state a call of `reload` leaves and the way it ends. -/
structure ReloadRun (K T : Type) where
  cache : Cache K T
  exit : Exit

/-- Lines 252-256 of `reload`: the re-arm signal to the periodic driver, then the return. -/
def Cache.notifyDriver (c : Cache K T) (newNext : Option Time) (err : Option Error) :
    ReloadRun K T :=
  match newNext with
  | none => { cache := c, exit := .returned err }
  | some _ =>
    match c.reloadChan.send true with
    | .sent ch => { cache := { c with reloadChan := ch }, exit := .returned err }
    | .blocks => { cache := c, exit := .blockedOnSend err }
    | .panics => { cache := c, exit := .panicked }

/-- The method `reload`, run without interference from other goroutines; `start` is the
reading of `time.Now()` in its first line and `u` the random draw of `RandomizeDuration`. -/
def Cache.reload (c : Cache K T) (force : Bool) (start : Time) (u : ℚ) : ReloadRun K T :=
  match c.setLoading start force with
  | (c1, some err) => { cache := c1, exit := .returned (some err) }
  | (c1, none) =>
    let (c2, r) := c1.load
    let newNext := c2.newNextReloadTime start u
    let c3 := c2.endReload newNext
    c3.notifyDriver newNext r.err

/-- The method `initPeriodicReload`, up to the start of its goroutine: the state it leaves
and whether the goroutine of the periodic driver was started. `now` is the reading of
`time.Now()` and `u` the random draw. -/
def Cache.initPeriodicReload (c : Cache K T) (now : Time) (u : ℚ) : Cache K T × Bool :=
  let baseInterval := c.timeouts.ReloadInterval
  if baseInterval = 0 then
    (c, false)
  else
    ({ c with nextReload := some (now + RandomizeDuration baseInterval c.timeouts.Ranomizer u) },
     true)

/-- The method `initInvalidations`: the subjects it subscribes to. -/
def initInvalidations (invalidations : Invalidations) : List String :=
  invalidations.Messages

/-- The composite literal `&Cache[K, T]{...}` of `New` followed by the creation of the
aggregator. -/
def Cache.fresh (p : Params K T) (f : LoadAllFunc K T) : Cache K T :=
  { timeouts := p.Timeouts
    loadAllFunc := f
    reloadChan := Chan.make
    aggregator :=
      if p.Timeouts.ReloadDelay > 0 then some (NewSimpleAggregator p.Timeouts.ReloadDelay)
      else none
    memSizeEnabled := p.MemsizeEnabled
    hasMetrics := p.MetricsRegistry
    data := none
    isReloading := false
    nextReload := none
    loaderCalls := 0
    memSizeJobs := 0 }

/-- The inputs of `New` that come from its environment: the error returned by
`metrics_pkg.New`, the clock reading and random draw of the first `reload`, and those of
`initPeriodicReload`. -/
structure NewEnv where
  metricsErr : Option Error
  start : Time
  u : ℚ
  now : Time
  u2 : ℚ

/-- What `New` leaves: the returned pointer `c` (`none` is `nil`), how the call ends, whether
the goroutine of the periodic driver runs, and the subscribed subjects. -/
structure NewRun (K T : Type) where
  cache : Option (Cache K T)
  exit : Exit
  driverStarted : Bool
  subscriptions : List String

/-- The constructor `New`. The branch for a missing `LoadAllFunc` after a passed `check` is
never taken (`Params.check` rejects it). -/
def New (p : Params K T) (env : NewEnv) : NewRun K T :=
  match p.check with
  | some err => { cache := none, exit := .returned (some err), driverStarted := false,
                  subscriptions := [] }
  | none =>
    match (if p.MetricsRegistry then env.metricsErr else none) with
    | some err => { cache := none, exit := .returned (some err), driverStarted := false,
                    subscriptions := [] }
    | none =>
      match p.LoadAllFunc with
      | none => { cache := none, exit := .returned (some .loadAllFuncMissing),
                  driverStarted := false, subscriptions := [] }
      | some f =>
        let run := (Cache.fresh p f).reload true env.start env.u
        match run.exit with
        | .returned none =>
          let (c, started) := run.cache.initPeriodicReload env.now env.u2
          { cache := some c, exit := .returned none, driverStarted := started,
            subscriptions := match p.Invalidations with
              | some i => initInvalidations i
              | none => [] }
        | other => { cache := some run.cache, exit := other, driverStarted := false,
                     subscriptions := [] }

/-- The closure `func() { _ = c.reload(true) }` that `New` gives to the aggregator as its
`aggregatedFunc`: the `force` arguments of the calls of `reload` it makes. -/
def aggregatedFunc : List Bool := [true]

/-- What a call of `InvalidateAll` leaves: the state, and the `force` arguments of the
statements `go c.reload(...)` it executed itself. -/
structure InvalidateRun (K T : Type) where
  cache : Cache K T
  reloads : List Bool

/-- The method `InvalidateAll`; `nowMillis` is the clock reading of `Notify`. -/
def Cache.InvalidateAll (c : Cache K T) (nowMillis : Int) : InvalidateRun K T :=
  match c.aggregator with
  | some a => { cache := { c with aggregator := some (a.Notify nowMillis) }, reloads := [] }
  | none => { cache := c, reloads := [true] }

/-- The number of invocations of the aggregator's `aggregatedFunc` so far. -/
def Cache.actions (c : Cache K T) : Nat :=
  match c.aggregator with
  | some a => a.actions
  | none => 0

/-- The calls of `reload` made by `n` invocations of `aggregatedFunc`. -/
def actionCalls (n : Nat) : List Bool := (List.replicate n aggregatedFunc).flatten

/-! ### The goroutine of the periodic driver -/

/-- A receive `v, more := <-ch`: `none` when it would block, else the channel after it and
`more`. A closed channel first yields what is still queued. -/
def Chan.recv (ch : Chan) : Option (Chan × Bool) :=
  match ch.buf with
  | _ :: rest => some ({ ch with buf := rest }, true)
  | [] => if ch.closed then some (ch, false) else none

/-- The statement `close(ch)`: `none` is the panic "close of closed channel". -/
def Chan.close (ch : Chan) : Option Chan :=
  if ch.closed then none else some { ch with closed := true }

/-- The case that the `select` of the periodic driver picks: the receive from
`c.reloadChan`, the timer, or `c.ctx.Done()`. -/
inductive Choice where
  | receive
  | timer
  | done
  deriving DecidableEq

/-- Where the goroutine of the periodic driver stands: at the top of its loop; returned;
parked for ever in the re-arm send of its own `reload`; or stopped by a panic. -/
inductive DriverState where
  | looping
  | stopped
  | blocked
  | panicked
  deriving DecidableEq

/-- The goroutine started by `initPeriodicReload`, with the cache it runs on, whether the
context has been cancelled, and the number of executions of `close(c.reloadChan)`. -/
structure Driver (K T : Type) where
  cache : Cache K T
  ctxDone : Bool
  state : DriverState
  closes : Nat

/-- The cases of the `select` that are ready at the instant `now`, for a timer armed for
`deadline`. -/
def Driver.ready (d : Driver K T) (deadline now : Time) : Choice → Bool
  | .receive => d.cache.reloadChan.recv.isSome
  | .timer => decide (deadline ≤ now)
  | .done => d.ctxDone

/-- One iteration of the loop of the periodic driver, in which the `select` picks the case
`ch` at the instant `now`; `none` when the driver is not at the top of its loop or the case
is not ready. A missing `nextReload` is a nil dereference. `u` is the random draw of the
`reload` of the timer case. -/
def Driver.iterate (d : Driver K T) (ch : Choice) (now : Time) (u : ℚ) :
    Option (Driver K T) :=
  match d.state with
  | .looping =>
    match d.cache.nextReload with
    | none => some { d with state := .panicked }
    | some deadline =>
      if d.ready deadline now ch then
        match ch with
        | .receive =>
          match d.cache.reloadChan.recv with
          | none => none
          | some (ch1, more) =>
            some { d with cache := { d.cache with reloadChan := ch1 }
                          state := if more then .looping else .stopped }
        | .timer =>
          let run := d.cache.reload false now u
          some { d with cache := run.cache
                        state := match run.exit with
                          | .returned _ => .looping
                          | .blockedOnSend _ => .blocked
                          | .panicked => .panicked }
        | .done =>
          match d.cache.reloadChan.close with
          | some ch1 =>
            some { d with cache := { d.cache with reloadChan := ch1 }, closes := d.closes + 1 }
          | none => some { d with state := .panicked, closes := d.closes + 1 }
      else none
  | _ => none

/-- The driver after the iterations of a schedule; `none` when the schedule asks for a case
that is not ready or continues after the driver has ended. -/
def Driver.run (d : Driver K T) : List (Choice × Time × ℚ) → Option (Driver K T)
  | [] => some d
  | (ch, now, u) :: rest =>
    match d.iterate ch now u with
    | none => none
    | some d1 => Driver.run d1 rest

/-- The cancellation signal fires. -/
def Driver.cancel (d : Driver K T) : Driver K T := { d with ctxDone := true }

/-- The driver as `initPeriodicReload` starts it on the cache `c`. -/
def Driver.start (c : Cache K T) : Driver K T :=
  { cache := c, ctxDone := false, state := .looping, closes := 0 }

/-! ## Sequential histories of reload attempts -/

/-- One call of `reload`: its argument and the inputs it reads from the environment. -/
structure Call where
  force : Bool
  start : Time
  u : ℚ

/-- The state after a sequence of calls of `reload`, each ending before the next starts. -/
def Cache.runCalls (c : Cache K T) : List Call → Cache K T
  | [] => c
  | a :: rest => Cache.runCalls (c.reload a.force a.start a.u).cache rest

/-- Whether a call of `reload` in state `c` passes `setLoading` and its loader invocation
reports no error. -/
def Cache.loadsFresh (c : Cache K T) (a : Call) : Bool :=
  (c.setLoading a.start a.force).2.isNone && (c.loadAllFunc c.loaderCalls).err.isNone

/-- The mapping returned by the most recent successful load of a history that starts in
state `c`; `none` when no call of the history loaded successfully. -/
def Cache.lastLoaded (c : Cache K T) : List Call → Option (Entries K T)
  | [] => none
  | a :: rest =>
    match Cache.lastLoaded (c.reload a.force a.start a.u).cache rest with
    | some m => some m
    | none => if c.loadsFresh a then some (c.loadAllFunc c.loaderCalls).entries else none

/-- The successive values of `nextReload` along a history. -/
def Cache.nextReloadLog (c : Cache K T) : List Call → List (Option Time)
  | [] => [c.nextReload]
  | a :: rest => c.nextReload :: Cache.nextReloadLog (c.reload a.force a.start a.u).cache rest

/-- The new value of `nextReload` is not earlier than the one it replaces. -/
def notEarlier (old new : Option Time) : Prop :=
  match old, new with
  | some o, some n => o ≤ n
  | some _, none => False
  | none, _ => True

instance (old new : Option Time) : Decidable (notEarlier old new) := by
  cases old <;> cases new <;> simp only [notEarlier] <;> infer_instance

/-! ## Interleaved reload attempts -/

/-- Where a goroutine that executes `reload` stands.
* `created`: before `start := time.Now()`;
* `started`: before `setLoading`;
* `loading`: `setLoading` returned `nil`, `loadAllFunc` has not returned;
* `loaded`: lines 206-232 are done, the critical section at the end is not;
* `released`: after the critical section, before the re-arm send (parked there if the
  buffer is full);
* `finished`: returned; `panicked`: the send hit a closed channel. -/
inductive Phase where
  | created
  | started (start : Time)
  | loading (start : Time)
  | loaded (start : Time) (err : Option Error) (newNext : Option Time)
  | released (err : Option Error) (newNext : Option Time)
  | finished (err : Option Error)
  | panicked
  deriving DecidableEq

/-- A goroutine executing `reload(force)`. -/
structure Attempt where
  force : Bool
  phase : Phase
  deriving DecidableEq

/-- An attempt is in flight between its successful `setLoading` and the critical section
that ends the reload. -/
def Attempt.inFlight (a : Attempt) : Bool :=
  match a.phase with
  | .loading _ => true
  | .loaded _ _ _ => true
  | _ => false

/-- The loader invocation of the attempt has started and has not returned. -/
def Attempt.inLoader (a : Attempt) : Bool :=
  match a.phase with
  | .loading _ => true
  | _ => false

/-- The next atomic step of one attempt on the shared state. `now` and `u` are the clock
reading and the random draw, used by the steps that read them. -/
def Attempt.step (c : Cache K T) (a : Attempt) (now : Time) (u : ℚ) : Cache K T × Attempt :=
  match a.phase with
  | .created => (c, { a with phase := .started now })
  | .started start =>
    match c.setLoading start a.force with
    | (c1, some err) => (c1, { a with phase := .finished (some err) })
    | (c1, none) => (c1, { a with phase := .loading start })
  | .loading start =>
    let (c2, r) := c.load
    (c2, { a with phase := .loaded start r.err (c2.newNextReloadTime start u) })
  | .loaded _ err newNext => (c.endReload newNext, { a with phase := .released err newNext })
  | .released err newNext =>
    let run := c.notifyDriver newNext err
    match run.exit with
    | .returned e => (run.cache, { a with phase := .finished e })
    | .blockedOnSend _ => (c, a)
    | .panicked => (c, { a with phase := .panicked })
  | .finished _ => (c, a)
  | .panicked => (c, a)

/-- One cache with the goroutines that execute `reload` on it. -/
structure System (K T : Type) where
  cache : Cache K T
  attempts : List Attempt

/-- What can happen next in a system. Every call of `reload`, whether by `New`, by
`InvalidateAll`, by the aggregator or by the periodic driver, is a `spawn`; the events
`invalidateAll` and `timerWakes` spawn the calls that `InvalidateAll` and the aggregator
make. -/
inductive Event where
  | spawn (force : Bool)
  | advance (i : Nat) (now : Time) (u : ℚ)
  | schedule (now : Time) (u : ℚ)
  | receive
  | close
  | invalidateAll (nowMillis : Int)
  | timerWakes (duration : Duration) (w : Wake)

/-- The effect of one event. `schedule` is the assignment of `initPeriodicReload`, `receive`
and `close` are what the periodic driver does to the re-arm channel, `invalidateAll` is a
call of `InvalidateAll`, and `timerWakes` the end of the `select` of a waiting
`startAggregationTimer`. -/
def System.step (s : System K T) : Event → System K T
  | .spawn force => { s with attempts := s.attempts ++ [{ force := force, phase := .created }] }
  | .advance i now u =>
    match s.attempts[i]? with
    | none => s
    | some a =>
      let (c, a1) := a.step s.cache now u
      { cache := c, attempts := s.attempts.set i a1 }
  | .schedule now u => { s with cache := (s.cache.initPeriodicReload now u).1 }
  | .receive =>
    { s with cache := { s.cache with
        reloadChan := { s.cache.reloadChan with buf := s.cache.reloadChan.buf.tail } } }
  | .close =>
    { s with cache := { s.cache with reloadChan := { s.cache.reloadChan with closed := true } } }
  | .invalidateAll nowMillis =>
    let r := s.cache.InvalidateAll nowMillis
    { cache := r.cache
      attempts := s.attempts ++
        (r.reloads ++ actionCalls (r.cache.actions - s.cache.actions)).map
          (fun force => { force := force, phase := .created }) }
  | .timerWakes duration w =>
    match s.cache.aggregator with
    | none => s
    | some a =>
      if duration ∈ a.timers then
        let a1 := a.startAggregationTimer duration w
        { cache := { s.cache with aggregator := some a1 }
          attempts := s.attempts ++
            (actionCalls (a1.actions - a.actions)).map
              (fun force => { force := force, phase := .created }) }
      else s

/-- The system after a sequence of events. -/
def System.run (s : System K T) : List Event → System K T
  | [] => s
  | e :: rest => System.run (s.step e) rest

/-- The system right after the cache was allocated in `New`: no call of `reload` yet. -/
def System.init (p : Params K T) (f : LoadAllFunc K T) : System K T :=
  { cache := Cache.fresh p f, attempts := [] }

/-- The single-flight invariant: the number of in-flight attempts is 1 when `isReloading`
is set and 0 otherwise. -/
def System.SingleFlight (s : System K T) : Prop :=
  s.attempts.countP Attempt.inFlight = s.cache.isReloading.toNat

instance (s : System K T) : Decidable s.SingleFlight := by
  unfold System.SingleFlight
  infer_instance

/-! ## Sample values -/

/-- Five keys `1..5`, each mapped to a pointer to `k * mult`; no other key. -/
def sampleEntries (mult : Nat) : Entries Nat Nat :=
  fun k => if 1 ≤ k ∧ k ≤ 5 then some (some (k * mult)) else none

/-- A loader whose second invocation fails and whose other invocations return
`sampleEntries` with a multiplier that grows with the invocation. -/
def sampleLoader : LoadAllFunc Nat Nat :=
  fun n =>
    if n = 1 then { entries := fun _ => none, err := some (.other "load failed") }
    else { entries := sampleEntries (10 * (n + 1)), err := none }

/-- A loader that always fails. -/
def failingLoader : LoadAllFunc Nat Nat :=
  fun _ => { entries := fun _ => none, err := some (.other "load failed") }

/-- Parameters in the manner of `testCacheGet`: interval 2s, delay 1s, no jitter. -/
def sampleParams : Params Nat Nat :=
  { Context := true
    MetricsRegistry := false
    Invalidations := none
    Name := "testing_cache"
    LoadAllFunc := some sampleLoader
    Timeouts := { ReloadInterval := 2 * Second, ReloadDelay := 1 * Second, Ranomizer := 0 }
    MemsizeEnabled := false }

/-- Clock readings and draws for `New`: everything happens at time 0. -/
def sampleEnv : NewEnv := { metricsErr := none, start := 0, u := 0, now := 0, u2 := 0 }

/-- A cache that holds `sampleEntries 10`, is idle, and is scheduled for the instant `100`. -/
def sampleCache : Cache Nat Nat :=
  { timeouts := { ReloadInterval := 10, ReloadDelay := 0, Ranomizer := 0 }
    loadAllFunc := sampleLoader
    reloadChan := Chan.make
    aggregator := none
    memSizeEnabled := false
    hasMetrics := false
    data := some (sampleEntries 10)
    isReloading := false
    nextReload := some 100
    loaderCalls := 1
    memSizeJobs := 0 }

/-- The cache that `New sampleParams sampleEnv` returns. -/
def sampleBuilt : Cache Nat Nat := (New sampleParams sampleEnv).cache.getD sampleCache

/-- Two forced calls of `reload`, at the instants 5 and 6. -/
def sampleCalls : List Call := [{ force := true, start := 5, u := 0 }, { force := true, start := 6, u := 0 }]

/-- The state of `sampleCache` once the context was cancelled and the periodic driver closed
the re-arm channel; the next loader invocation is the failing one. -/
def closedCache : Cache Nat Nat := { sampleCache with reloadChan := { buf := [], closed := true } }

/-- Timeouts with a negative interval and an equally negative delay. -/
def negativeTimeouts : Timeouts :=
  { ReloadInterval := -Second, ReloadDelay := -Second, Ranomizer := 0 }

/-- Parameters that are valid except for `negativeTimeouts`. -/
def negativeParams : Params Nat Nat := { sampleParams with Timeouts := negativeTimeouts }

/-- The cache that `New negativeParams sampleEnv` returns. -/
def negativeBuilt : Cache Nat Nat := (New negativeParams sampleEnv).cache.getD sampleCache

/-- The `float64` nearest to `1.1`, as an exact rational. -/
def float_1_1 : ℚ := 2476979795053773 / 2251799813685248

/-- A loader that always returns `sampleEntries 10`. -/
def steadyLoader : LoadAllFunc Nat Nat := fun _ => { entries := sampleEntries 10, err := none }

/-- Parameters with full jitter: interval 10ns, no delay, `Ranomizer = 1`. -/
def jitterParams : Params Nat Nat :=
  { sampleParams with
    LoadAllFunc := some steadyLoader
    Timeouts := { ReloadInterval := 10, ReloadDelay := 0, Ranomizer := 1 } }

/-- Clock readings and draws for `New jitterParams`: everything at time 0, and the draw of
`initPeriodicReload` is the largest one. -/
def jitterEnv : NewEnv := { metricsErr := none, start := 0, u := 0, now := 0, u2 := 1 }

/-- The cache built by `New jitterParams jitterEnv`, after the periodic driver received the
re-arm signal of the construction reload: scheduled for the instant 20. -/
def jitterCache : Cache Nat Nat :=
  { timeouts := { ReloadInterval := 10, ReloadDelay := 0, Ranomizer := 1 }
    loadAllFunc := steadyLoader
    reloadChan := Chan.make
    aggregator := none
    memSizeEnabled := false
    hasMetrics := false
    data := some (sampleEntries 10)
    isReloading := false
    nextReload := some 20
    loaderCalls := 1
    memSizeJobs := 0 }

/-- Parameters like `sampleParams` with a loader that always fails. -/
def failingParams : Params Nat Nat := { sampleParams with LoadAllFunc := some failingLoader }

/-- Two forced attempts on a fresh cache: the first reads the clock and passes `setLoading`,
then the second reads the clock and calls `setLoading` while the loader of the first runs. -/
def sampleEvents : List Event :=
  [.spawn true, .spawn true, .advance 0 0 0, .advance 0 0 0, .advance 1 1 0, .advance 1 1 0]

/-- The instants of the calls of `Notify` in `testAggregatorTiming`. -/
def testTimes : List Time :=
  [0, 2100 * Millisecond, 2100 * Millisecond, 2100 * Millisecond, 4200 * Millisecond,
    11300 * Millisecond, 11400 * Millisecond]

/-- The instants of the calls of `Notify` in `testAggregatorContext`. -/
def contextTimes : List Time := [0, 2 * Second, 2 * Second, 2 * Second]

/-- Calls of `Notify` at 0 ms, at 2100.9 ms and at 3000.5 ms. -/
def offsetTimes : List Time := [0, 2100900000, 3000500000]

/-- An aggregator whose window ends `10^13` milliseconds after the clock reading 0, nothing
pending. -/
def farAggregator : SimpleAggregator :=
  { flushInterval := 3 * Second, blockUntilMillis := 10000000000000, queued := false,
    timers := [], actions := 1 }

/-- The time line of `testAggregatorTiming`: a flush interval of 3 seconds. -/
def testTimeline : Timeline := Timeline.fresh (3 * Second)

/-- An aggregator in an active window that ends at the instant 3000, nothing pending. -/
def windowedAggregator : SimpleAggregator :=
  { flushInterval := 3 * Second, blockUntilMillis := 3000, queued := false, timers := [],
    actions := 1 }

/-- The periodic driver of `sampleBuilt` after the cancellation signal has fired. -/
def cancelledDriver : Driver Nat Nat := (Driver.start sampleBuilt).cancel

/-- The state of `jitterCache` after the context was cancelled and its periodic driver
picked the `ctx.Done()` case once: the re-arm channel is closed. -/
def cancelledCache : Cache Nat Nat :=
  (((Driver.start jitterCache).cancel.iterate .done 0 0).map (fun d => d.cache)).getD jitterCache

/-! # Properties -/

section Lemmas

variable {K T : Type}

/-! ## `setLoading` and `reload`, case by case -/

theorem setLoading_eq (c : Cache K T) (start : Time) (force : Bool) :
    c.setLoading start force =
      if c.isReloading = true then (c, some Error.alreadyReloading)
      else if force = false ∧ (∃ n, c.nextReload = some n ∧ start < n) then
        (c, some Error.cannotReloadYet)
      else ({ c with isReloading := true }, none) := by
  unfold Cache.setLoading
  cases hr : c.isReloading <;> cases force <;> cases hn : c.nextReload <;> simp

theorem setLoading_rejected_state (c : Cache K T) (start : Time) (force : Bool) (err : Error)
    (h : (c.setLoading start force).2 = some err) : (c.setLoading start force).1 = c := by
  rw [setLoading_eq] at h ⊢
  split_ifs at h ⊢ <;> simp_all

theorem setLoading_accepted_state (c : Cache K T) (start : Time) (force : Bool)
    (h : (c.setLoading start force).2 = none) :
    (c.setLoading start force).1 = { c with isReloading := true } := by
  rw [setLoading_eq] at h ⊢
  split_ifs at h ⊢
  rfl

theorem reload_of_rejected (c : Cache K T) (force : Bool) (start : Time) (u : ℚ) (err : Error)
    (h : (c.setLoading start force).2 = some err) :
    c.reload force start u = { cache := c, exit := .returned (some err) } := by
  have h1 := setLoading_rejected_state c start force err h
  unfold Cache.reload
  rcases hs : c.setLoading start force with ⟨c1, e⟩
  rw [hs] at h h1
  simp only at h h1
  subst h h1
  rfl

theorem reload_of_accepted (c : Cache K T) (force : Bool) (start : Time) (u : ℚ)
    (h : (c.setLoading start force).2 = none) :
    c.reload force start u =
      (({ c with isReloading := true } : Cache K T).load.1.endReload
          (({ c with isReloading := true } : Cache K T).load.1.newNextReloadTime start u)).notifyDriver
        (({ c with isReloading := true } : Cache K T).load.1.newNextReloadTime start u)
        ({ c with isReloading := true } : Cache K T).load.2.err := by
  have h1 := setLoading_accepted_state c start force h
  unfold Cache.reload
  rcases hs : c.setLoading start force with ⟨c1, e⟩
  rw [hs] at h h1
  simp only at h h1
  subst h h1
  rfl

theorem load_data (c : Cache K T) :
    c.load.1.data =
      if (c.loadAllFunc c.loaderCalls).err = none then some (c.loadAllFunc c.loaderCalls).entries
      else c.data := by
  unfold Cache.load
  cases h : (c.loadAllFunc c.loaderCalls).err <;> simp [h]

theorem load_result (c : Cache K T) : c.load.2 = c.loadAllFunc c.loaderCalls := by
  unfold Cache.load
  cases h : (c.loadAllFunc c.loaderCalls).err <;> simp [h]

theorem load_frame (c : Cache K T) :
    c.load.1.timeouts = c.timeouts ∧ c.load.1.isReloading = c.isReloading ∧
      c.load.1.nextReload = c.nextReload ∧ c.load.1.reloadChan = c.reloadChan ∧
      c.load.1.loaderCalls = c.loaderCalls + 1 ∧ c.load.1.loadAllFunc = c.loadAllFunc := by
  unfold Cache.load
  cases h : (c.loadAllFunc c.loaderCalls).err <;> simp [h]

theorem notifyDriver_frame (c : Cache K T) (newNext : Option Time) (err : Option Error) :
    (c.notifyDriver newNext err).cache.data = c.data ∧
      (c.notifyDriver newNext err).cache.isReloading = c.isReloading ∧
      (c.notifyDriver newNext err).cache.nextReload = c.nextReload ∧
      (c.notifyDriver newNext err).cache.timeouts = c.timeouts ∧
      (c.notifyDriver newNext err).cache.loaderCalls = c.loaderCalls ∧
      (c.notifyDriver newNext err).cache.loadAllFunc = c.loadAllFunc := by
  unfold Cache.notifyDriver
  cases newNext with
  | none => simp
  | some t => cases hs : c.reloadChan.send true <;> simp

/-- The snapshot after a call of `reload`: the loaded mapping when the call passed
`setLoading` and the loader reported no error, the previous snapshot otherwise. -/
theorem reload_data (c : Cache K T) (force : Bool) (start : Time) (u : ℚ) :
    (c.reload force start u).cache.data =
      if c.loadsFresh { force := force, start := start, u := u } = true then
        some (c.loadAllFunc c.loaderCalls).entries
      else c.data := by
  cases hs : (c.setLoading start force).2 with
  | some err =>
    rw [reload_of_rejected c force start u err hs]
    simp [Cache.loadsFresh, hs]
  | none =>
    rw [reload_of_accepted c force start u hs, (notifyDriver_frame _ _ _).1]
    simp only [Cache.endReload, load_data, Cache.loadsFresh, hs]
    cases he : (c.loadAllFunc c.loaderCalls).err <;> simp

theorem reload_loadAllFunc (c : Cache K T) (force : Bool) (start : Time) (u : ℚ) :
    (c.reload force start u).cache.loadAllFunc = c.loadAllFunc ∧
      (c.reload force start u).cache.timeouts = c.timeouts := by
  cases hs : (c.setLoading start force).2 with
  | some err => rw [reload_of_rejected c force start u err hs]; exact ⟨rfl, rfl⟩
  | none =>
    rw [reload_of_accepted c force start u hs]
    refine ⟨?_, ?_⟩
    · rw [(notifyDriver_frame _ _ _).2.2.2.2.2]
      simp only [Cache.endReload]
      exact (load_frame _).2.2.2.2.2
    · rw [(notifyDriver_frame _ _ _).2.2.2.1]
      simp only [Cache.endReload]
      exact (load_frame _).1

/-- Along a history the snapshot is the mapping of the most recent successful load, or the
initial snapshot when no call loaded successfully. -/
theorem runCalls_data (calls : List Call) (c : Cache K T) :
    (c.runCalls calls).data =
      match c.lastLoaded calls with
      | some m => some m
      | none => c.data := by
  induction calls generalizing c with
  | nil => simp [Cache.runCalls, Cache.lastLoaded]
  | cons a rest ih =>
    simp only [Cache.runCalls, Cache.lastLoaded]
    rw [ih]
    cases hl : Cache.lastLoaded (c.reload a.force a.start a.u).cache rest with
    | some m => simp
    | none =>
      simp only
      rw [reload_data]
      split_ifs <;> simp_all

end Lemmas

section NewLemmas

variable {K T : Type}

theorem notifyDriver_returned (c : Cache K T) (newNext : Option Time) (err e : Option Error)
    (h : (c.notifyDriver newNext err).exit = .returned e) : e = err := by
  unfold Cache.notifyDriver at h
  cases newNext with
  | none => simpa using h.symm
  | some t =>
    cases hs : c.reloadChan.send true <;> simp [hs] at h
    exact h.symm

theorem initPeriodicReload_frame (c : Cache K T) (now : Time) (u : ℚ) :
    (c.initPeriodicReload now u).1.data = c.data ∧
      (c.initPeriodicReload now u).1.isReloading = c.isReloading ∧
      (c.initPeriodicReload now u).1.loadAllFunc = c.loadAllFunc ∧
      (c.initPeriodicReload now u).1.timeouts = c.timeouts := by
  unfold Cache.initPeriodicReload
  by_cases h : c.timeouts.ReloadInterval = 0 <;> simp [h]

theorem fresh_setLoading (p : Params K T) (f : LoadAllFunc K T) (start : Time) :
    ((Cache.fresh p f).setLoading start true).2 = none := by
  simp [setLoading_eq, Cache.fresh]

/-- What a successful `New` went through. -/
theorem New_success (p : Params K T) (env : NewEnv) (c0 : Cache K T)
    (hexit : (New p env).exit = .returned none) (hc : (New p env).cache = some c0) :
    ∃ f, p.LoadAllFunc = some f ∧ p.check = none ∧
      ((Cache.fresh p f).reload true env.start env.u).exit = .returned none ∧
      c0 = (((Cache.fresh p f).reload true env.start env.u).cache.initPeriodicReload
        env.now env.u2).1 := by
  unfold New at hexit hc
  cases hchk : p.check with
  | some err => simp [hchk] at hexit
  | none =>
    simp only [hchk] at hexit hc
    cases hm : (if p.MetricsRegistry = true then env.metricsErr else none) with
    | some err => simp [hm] at hexit
    | none =>
      simp only [hm] at hexit hc
      cases hf : p.LoadAllFunc with
      | none => simp [hf] at hexit
      | some f =>
        simp only [hf] at hexit hc
        refine ⟨f, rfl, rfl, ?_⟩
        cases hx : ((Cache.fresh p f).reload true env.start env.u).exit with
        | returned e =>
          cases e with
          | none =>
            simp only [hx] at hc
            refine ⟨rfl, ?_⟩
            simpa using hc.symm
          | some err => simp [hx] at hexit
        | blockedOnSend e => simp [hx] at hexit
        | panicked => simp [hx] at hexit

/-- The first load of a successful `New` reported no error, and its mapping is the snapshot
of the returned cache. -/
theorem New_success_data (p : Params K T) (env : NewEnv) (c0 : Cache K T) (f : LoadAllFunc K T)
    (hexit : (New p env).exit = .returned none) (hc : (New p env).cache = some c0)
    (hf : p.LoadAllFunc = some f) :
    (f 0).err = none ∧ c0.data = some (f 0).entries ∧ c0.loadAllFunc = f := by
  obtain ⟨g, hg, _, hx, rfl⟩ := New_success p env c0 hexit hc
  rw [hf] at hg
  cases hg
  have hacc := fresh_setLoading p f env.start
  have herr : (f 0).err = none := by
    rw [reload_of_accepted _ _ _ _ hacc] at hx
    have := notifyDriver_returned _ _ _ _ hx
    rw [load_result] at this
    simpa [Cache.fresh] using this.symm
  refine ⟨herr, ?_, ?_⟩
  · rw [(initPeriodicReload_frame _ _ _).1, reload_data]
    rw [if_pos (by simp [Cache.loadsFresh, hacc]; simp [Cache.fresh, herr])]
    rfl
  · rw [(initPeriodicReload_frame _ _ _).2.2.1, (reload_loadAllFunc _ _ _ _).1]
    rfl

end NewLemmas

/-! # Properties of the specification -/

section SpecReads

variable {K T : Type}

/-- C1: in a cache built by a successful `New`, after any history of reload calls, with `m`
the mapping returned by the most recent successful load (a call of the history, or else the
load of the construction), `GetAll` returns `m` itself, `Get k` returns `m[k]` (the stored
pointer for a key of `m`, `nil` for any other key), and in every cache state `Get k` is the
lookup of `k` in `GetAll()`. -/
theorem get_returns_most_recent_load (p : Params K T) (env : NewEnv) (c0 : Cache K T)
    (f : LoadAllFunc K T) (calls : List Call)
    (hexit : (New p env).exit = .returned none) (hc : (New p env).cache = some c0)
    (hf : p.LoadAllFunc = some f) :
    (c0.runCalls calls).GetAll = some ((c0.lastLoaded calls).getD (f 0).entries) ∧
    (∀ k v, (c0.lastLoaded calls).getD (f 0).entries k = some v →
      (c0.runCalls calls).Get k = some v) ∧
    (∀ k, (c0.lastLoaded calls).getD (f 0).entries k = none →
      (c0.runCalls calls).Get k = some none) ∧
    (∀ k, (c0.runCalls calls).Get k =
      some (((c0.lastLoaded calls).getD (f 0).entries).index k)) ∧
    (∀ (c : Cache K T) (k : K), c.Get k = c.GetAll.map (fun entries => entries.index k)) := by
  have hdata : (c0.runCalls calls).data = some ((c0.lastLoaded calls).getD (f 0).entries) := by
    rw [runCalls_data, (New_success_data p env c0 f hexit hc hf).2.1]
    cases c0.lastLoaded calls <;> simp
  have hall : ∀ (c : Cache K T) (k : K),
      c.Get k = c.GetAll.map (fun entries => entries.index k) := by
    intro c k
    unfold Cache.Get Entries.index
    cases c.GetAll with
    | none => rfl
    | some entries => cases h : entries k <;> simp [h]
  refine ⟨hdata, ?_, ?_, ?_, hall⟩
  · intro k v hk
    rw [hall, Cache.GetAll, hdata]
    simp [Entries.index, hk]
  · intro k hk
    rw [hall, Cache.GetAll, hdata]
    simp [Entries.index, hk]
  · intro k
    rw [hall, Cache.GetAll, hdata]
    rfl

/-- C2: `setLoading(t0, force)` returns no error and leaves `isReloading = true` exactly when
`isReloading` was false and (`force`, or `nextReload` is unset, or `t0` is not before
`nextReload`); it then changes nothing else. While a reload is in flight every attempt, forced
or not, gets "already reloading"; an unforced attempt on an idle cache with `t0` before
`nextReload` gets "cannot reload yet". -/
theorem setLoading_accepts_iff (c : Cache K T) (t0 : Time) (force : Bool) :
    (((c.setLoading t0 force).2 = none ∧ (c.setLoading t0 force).1.isReloading = true) ↔
      (c.isReloading = false ∧
        (force = true ∨ c.nextReload = none ∨ ∃ n, c.nextReload = some n ∧ ¬ t0 < n))) ∧
    ((c.setLoading t0 force).2 = none →
      (c.setLoading t0 force).1 = { c with isReloading := true }) ∧
    (c.isReloading = true →
      (c.setLoading t0 force).2 = some .alreadyReloading ∧
        Error.alreadyReloading.message = "already reloading") ∧
    (c.isReloading = false → force = false → (∃ n, c.nextReload = some n ∧ t0 < n) →
      (c.setLoading t0 force).2 = some .cannotReloadYet ∧
        Error.cannotReloadYet.message = "cannot reload yet") := by
  refine ⟨?_, setLoading_accepted_state c t0 force, ?_, ?_⟩
  · rw [setLoading_eq]
    cases hr : c.isReloading <;> cases force <;> cases hn : c.nextReload <;> simp
    split_ifs <;> simp_all
  · intro hr
    simp [setLoading_eq, hr, Error.message]
  · intro hr hf hn
    simp [setLoading_eq, hr, hf, hn, Error.message]

/-- C3: a call of `reload(force)` made while a reload is in flight, or unforced before
`nextReload`, returns the rejection error and leaves the whole cache state as it was: the
loader is not invoked, the snapshot, `isReloading`, `nextReload` and the re-arm channel are
unchanged. -/
theorem reload_rejected_changes_nothing (c : Cache K T) (force : Bool) (start : Time) (u : ℚ)
    (h : c.isReloading = true ∨ (force = false ∧ ∃ n, c.nextReload = some n ∧ start < n)) :
    (c.reload force start u).exit =
      .returned (some (if c.isReloading = true then .alreadyReloading else .cannotReloadYet)) ∧
    (c.reload force start u).cache = c ∧
    (c.reload force start u).cache.loaderCalls = c.loaderCalls ∧
    (c.reload force start u).cache.data = c.data ∧
    (c.reload force start u).cache.isReloading = c.isReloading ∧
    (c.reload force start u).cache.nextReload = c.nextReload ∧
    (c.reload force start u).cache.reloadChan = c.reloadChan := by
  have hs : (c.setLoading start force).2 =
      some (if c.isReloading = true then .alreadyReloading else .cannotReloadYet) := by
    rw [setLoading_eq]
    rcases h with h | h
    · simp [h]
    · by_cases hr : c.isReloading = true
      · simp [hr]
      · simp [hr, h]
  rw [reload_of_rejected c force start u _ hs]
  simp

end SpecReads

section MoreLemmas

variable {K T : Type}

theorem truncDuration_intCast (n : Int) : truncDuration (n : ℚ) = n := by
  unfold truncDuration
  split_ifs <;> simp

theorem RandomizeDuration_eq (d : Duration) (r u : ℚ) (n : Int)
    (h : (d : ℚ) * r * clampUnit u = (n : ℚ)) : RandomizeDuration d r u = d + n := by
  unfold RandomizeDuration
  rw [h, truncDuration_intCast]

theorem RandomizeDuration_zero (d : Duration) (u : ℚ) : RandomizeDuration d 0 u = d := by
  rw [RandomizeDuration_eq d 0 u 0 (by simp)]
  simp

theorem clampUnit_bounds (u : ℚ) : -1 ≤ clampUnit u ∧ clampUnit u ≤ 1 := by
  unfold clampUnit
  refine ⟨le_max_left _ _, max_le (by norm_num) (min_le_left _ _)⟩

theorem truncDuration_bounds (x a : ℚ) (hlo : -a ≤ x) (hhi : x ≤ a) :
    -a ≤ (truncDuration x : ℚ) ∧ (truncDuration x : ℚ) ≤ a := by
  have ha : 0 ≤ a := by linarith
  unfold truncDuration
  split_ifs with h
  · have h1 : ((⌊x⌋ : Int) : ℚ) ≤ x := Int.floor_le x
    have h2 : (0 : ℚ) ≤ ((⌊x⌋ : Int) : ℚ) := by exact_mod_cast Int.floor_nonneg.mpr h
    constructor <;> linarith
  · have hx : x ≤ 0 := le_of_lt (not_le.mp h)
    have h1 : x ≤ ((⌈x⌉ : Int) : ℚ) := Int.le_ceil x
    have h2 : ((⌈x⌉ : Int) : ℚ) ≤ 0 := by
      have : ⌈x⌉ ≤ 0 := Int.ceil_le.mpr (by simpa using hx)
      exact_mod_cast this
    constructor <;> linarith

/-- The jittered interval stays within `d ± d * r` for `d ≥ 0` and `r ≥ 0`. -/
theorem RandomizeDuration_bounds (d : Duration) (r u : ℚ) (hd : 0 ≤ d) (hr : 0 ≤ r) :
    (d : ℚ) - d * r ≤ (RandomizeDuration d r u : ℚ) ∧
      (RandomizeDuration d r u : ℚ) ≤ d + d * r := by
  have hdq : (0 : ℚ) ≤ (d : ℚ) := by exact_mod_cast hd
  have hdr : (0 : ℚ) ≤ (d : ℚ) * r := mul_nonneg hdq hr
  obtain ⟨hlo, hhi⟩ := clampUnit_bounds u
  have h1 : -((d : ℚ) * r) ≤ (d : ℚ) * r * clampUnit u := by nlinarith
  have h2 : (d : ℚ) * r * clampUnit u ≤ (d : ℚ) * r := by nlinarith
  obtain ⟨b1, b2⟩ := truncDuration_bounds _ _ h1 h2
  unfold RandomizeDuration
  push_cast
  constructor <;> linarith

theorem Timeouts.check_eq_none_iff (t : Timeouts) :
    t.check = none ↔ t.ReloadDelay ≤ t.ReloadInterval ∧ 0 ≤ t.Ranomizer ∧ t.Ranomizer ≤ 1 := by
  unfold Timeouts.check
  split_ifs with h1 h2 h3
  · simp only [reduceCtorEq, false_iff, not_and]
    intro h
    exact absurd h1 (not_lt.mpr h)
  · simp only [reduceCtorEq, false_iff, not_and]
    intro _ h
    exact absurd h2 (not_lt.mpr h)
  · simp only [reduceCtorEq, false_iff, not_and]
    intro _ _ h
    exact absurd h3 (not_lt.mpr h)
  · simp only [true_iff]
    exact ⟨not_lt.mp h1, not_lt.mp h2, not_lt.mp h3⟩

/-- The scheduling state at the end of a call of `reload` that passed `setLoading`. -/
theorem reload_accepted_schedule (c : Cache K T) (force : Bool) (start : Time) (u : ℚ)
    (hacc : (c.setLoading start force).2 = none) :
    (c.reload force start u).cache.isReloading = false ∧
      (c.reload force start u).cache.nextReload =
        if c.timeouts.ReloadInterval > 0 then
          some (start + RandomizeDuration c.timeouts.ReloadInterval c.timeouts.Ranomizer u)
        else c.nextReload := by
  rw [reload_of_accepted c force start u hacc]
  refine ⟨?_, ?_⟩
  · rw [(notifyDriver_frame _ _ _).2.1]
    rfl
  · rw [(notifyDriver_frame _ _ _).2.2.1]
    simp only [Cache.endReload, Cache.newNextReloadTime, (load_frame _).1, (load_frame _).2.2.1]
    split_ifs <;> rfl

/-- The part of the loader-error contract that holds in every state: a call of `reload`
that passed `setLoading` and whose loader reported `e` leaves the snapshot as it was, and it
returns `e` whenever its re-arm send can complete (no periodic schedule, or an open channel
with a free slot). -/
theorem reload_loader_error_keeps_snapshot (c : Cache K T) (force : Bool) (start : Time)
    (u : ℚ) (e : Error) (hacc : (c.setLoading start force).2 = none)
    (herr : (c.loadAllFunc c.loaderCalls).err = some e) :
    (c.reload force start u).cache.data = c.data ∧
      ((¬ c.timeouts.ReloadInterval > 0 ∨
          (c.reloadChan.closed = false ∧ c.reloadChan.buf.length < reloadChanCap)) →
        (c.reload force start u).exit = .returned (some e)) ∧
      (c.timeouts.ReloadInterval > 0 → c.reloadChan.closed = true →
        (c.reload force start u).exit = .panicked) := by
  refine ⟨?_, ?_, ?_⟩
  · rw [reload_data]
    simp [Cache.loadsFresh, herr]
  · intro h
    rw [reload_of_accepted c force start u hacc]
    simp only [Cache.notifyDriver, Cache.endReload, Cache.newNextReloadTime, (load_frame _).1,
      (load_frame _).2.2.2.1, load_result, herr]
    by_cases hi : c.timeouts.ReloadInterval > 0
    · rcases h with h | ⟨h1, h2⟩
      · exact absurd hi h
      · simp [hi, Chan.send, h1, h2]
    · simp [hi]
  · intro hi hcl
    rw [reload_of_accepted c force start u hacc]
    simp only [Cache.notifyDriver, Cache.endReload, Cache.newNextReloadTime, (load_frame _).1,
      (load_frame _).2.2.2.1, load_result, herr]
    simp [hi, Chan.send, hcl]

end MoreLemmas

section SpecReload

variable {K T : Type}

/-- C4: at the failing input the claim does not hold: on a cache with a periodic schedule
whose re-arm channel was closed by the driver, a forced `reload` passes `setLoading`, its loader
reports an error, the snapshot stays the one before, but the call does not return that error:
it panics in the send on the closed channel. -/
theorem reload_loader_error_panics_on_closed_channel :
    (closedCache.setLoading 5 true).2 = none ∧
      (closedCache.loadAllFunc closedCache.loaderCalls).err = some (.other "load failed") ∧
      closedCache.timeouts.ReloadInterval > 0 ∧
      (closedCache.reload true 5 0).exit = .panicked ∧
      (closedCache.reload true 5 0).exit ≠ .returned (some (.other "load failed")) ∧
      (closedCache.reload true 5 0).cache.data = closedCache.data := by
  refine ⟨by decide, by decide, by decide, by decide, by decide, ?_⟩
  exact (reload_loader_error_keeps_snapshot closedCache true 5 0 (.other "load failed")
    (by decide) (by decide)).1

/-- C5: a call of `reload` at time `t0` that passed `setLoading`, on a cache whose timeouts
passed `check`, ends with `isReloading = false` whatever the loader returned; with
`ReloadInterval > 0` it leaves `nextReload = t0 + d`, `d = RandomizeDuration(ReloadInterval,
Ranomizer)` lying within `ReloadInterval ± ReloadInterval * Ranomizer` (so `nextReload = t0 +
ReloadInterval` for `Ranomizer = 0`); with `ReloadInterval = 0` it leaves `nextReload` as it
was. -/
theorem reload_accepted_end_state (c : Cache K T) (force : Bool) (t0 : Time) (u : ℚ)
    (hchk : c.timeouts.check = none) (hacc : (c.setLoading t0 force).2 = none) :
    (c.reload force t0 u).cache.isReloading = false ∧
    (c.timeouts.ReloadInterval > 0 →
      (c.reload force t0 u).cache.nextReload =
          some (t0 + RandomizeDuration c.timeouts.ReloadInterval c.timeouts.Ranomizer u) ∧
        (c.timeouts.ReloadInterval : ℚ) - c.timeouts.ReloadInterval * c.timeouts.Ranomizer ≤
          (RandomizeDuration c.timeouts.ReloadInterval c.timeouts.Ranomizer u : ℚ) ∧
        (RandomizeDuration c.timeouts.ReloadInterval c.timeouts.Ranomizer u : ℚ) ≤
          (c.timeouts.ReloadInterval : ℚ) + c.timeouts.ReloadInterval * c.timeouts.Ranomizer ∧
        (c.timeouts.Ranomizer = 0 →
          (c.reload force t0 u).cache.nextReload = some (t0 + c.timeouts.ReloadInterval))) ∧
    (c.timeouts.ReloadInterval = 0 →
      (c.reload force t0 u).cache.nextReload = c.nextReload) := by
  obtain ⟨h1, h2⟩ := reload_accepted_schedule c force t0 u hacc
  obtain ⟨_, hr0, _⟩ := (Timeouts.check_eq_none_iff _).mp hchk
  refine ⟨h1, ?_, ?_⟩
  · intro hi
    rw [if_pos hi] at h2
    obtain ⟨b1, b2⟩ := RandomizeDuration_bounds c.timeouts.ReloadInterval c.timeouts.Ranomizer u
      (le_of_lt hi) hr0
    refine ⟨h2, b1, b2, ?_⟩
    intro hz
    rw [h2, hz, RandomizeDuration_zero]
  · intro hi
    rw [h2, if_neg (by rw [hi]; decide)]

/-- C9: `check` returns no error exactly when `ReloadDelay <= ReloadInterval` and
`0 <= Ranomizer <= 1`; with `ReloadInterval = 10s` the delays 0s, 5s, 8s and 10s pass and 15s
does not, and the `Ranomizer` values 0 and 0.5 pass while -0.5 and 1.1 do not. -/
theorem Timeouts_check_accepts_iff :
    (∀ t : Timeouts,
      t.check = none ↔ t.ReloadDelay ≤ t.ReloadInterval ∧ 0 ≤ t.Ranomizer ∧ t.Ranomizer ≤ 1) ∧
    (∀ d ∈ [0 * Second, 5 * Second, 8 * Second, 10 * Second],
      ({ ReloadInterval := 10 * Second, ReloadDelay := d, Ranomizer := 0 } : Timeouts).check
        = none) ∧
    ({ ReloadInterval := 10 * Second, ReloadDelay := 15 * Second, Ranomizer := 0 } :
      Timeouts).check = some .reloadDelayTooLong ∧
    ({ ReloadInterval := 0, ReloadDelay := 0, Ranomizer := 0 } : Timeouts).check = none ∧
    ({ ReloadInterval := 0, ReloadDelay := 0, Ranomizer := 1 / 2 } : Timeouts).check = none ∧
    ({ ReloadInterval := 0, ReloadDelay := 0, Ranomizer := -(1 / 2) } : Timeouts).check
      = some .ranomizerNegative ∧
    ({ ReloadInterval := 0, ReloadDelay := 0, Ranomizer := float_1_1 } : Timeouts).check
      = some .ranomizerTooBig := by
  refine ⟨Timeouts.check_eq_none_iff, ?_, ?_, ?_, ?_, ?_, ?_⟩
  · intro d hd
    simp only [List.mem_cons, List.mem_singleton, List.not_mem_nil, or_false] at hd
    rcases hd with rfl | rfl | rfl | rfl <;> simp [Timeouts.check, Second]
  · simp [Timeouts.check, Second]
  · simp [Timeouts.check]
  · simp [Timeouts.check]
    norm_num
  · simp [Timeouts.check]
  · simp [Timeouts.check, float_1_1]
    norm_num

/-- C10: at the failing input the claim does not hold: the timeouts with `ReloadInterval =
-1s`, `ReloadDelay = -1s`, `Ranomizer = 0` pass `check`, `New` returns no error for parameters
carrying them, and it starts the periodic driver on a schedule that lies in the past and that
a later accepted `reload` does not move. -/
theorem negative_interval_passes_check :
    negativeTimeouts.ReloadInterval < 0 ∧
      negativeTimeouts.check = none ∧
      negativeParams.check = none ∧
      (New negativeParams sampleEnv).exit = .returned none ∧
      (New negativeParams sampleEnv).cache = some negativeBuilt ∧
      (New negativeParams sampleEnv).driverStarted = true ∧
      negativeBuilt.nextReload = some (-Second) ∧
      (negativeBuilt.setLoading 5 false).2 = none ∧
      (negativeBuilt.reload false 5 0).cache.nextReload = some (-Second) := by
  have hn : negativeBuilt.nextReload = some (-Second) := by
    simp [negativeBuilt, New, negativeParams, sampleParams, negativeTimeouts, Params.check,
      Timeouts.check, Second, sampleEnv, Cache.initPeriodicReload, Cache.fresh,
      RandomizeDuration_zero, Cache.reload, Cache.setLoading, Cache.load, sampleLoader,
      Cache.newNextReloadTime, Cache.endReload, Cache.notifyDriver]
    norm_num
  have hacc : (negativeBuilt.setLoading 5 false).2 = none := by
    rw [setLoading_eq]
    have : negativeBuilt.isReloading = false := by decide
    simp [this, hn, Second]
  refine ⟨by decide, by decide, by decide, by decide, by rfl, by decide, hn, hacc, ?_⟩
  · rw [(reload_accepted_schedule _ _ _ _ hacc).2, if_neg (by decide), hn]

end SpecReload

section ScheduleLemmas

variable {K T : Type}

theorem notEarlier_refl (x : Option Time) : notEarlier x x := by
  cases x <;> simp [notEarlier]

theorem nextReloadLog_head (c : Cache K T) (calls : List Call) :
    (c.nextReloadLog calls).head? = some c.nextReload := by
  cases calls <;> rfl

/-- The jittered interval is never negative for a checked, positive interval. -/
theorem RandomizeDuration_nonneg (t : Timeouts) (u : ℚ) (hchk : t.check = none)
    (hi : t.ReloadInterval > 0) : 0 ≤ RandomizeDuration t.ReloadInterval t.Ranomizer u := by
  obtain ⟨_, hr0, hr1⟩ := (Timeouts.check_eq_none_iff _).mp hchk
  obtain ⟨b1, _⟩ := RandomizeDuration_bounds t.ReloadInterval t.Ranomizer u (le_of_lt hi) hr0
  have hq : (0 : ℚ) < (t.ReloadInterval : ℚ) := by exact_mod_cast hi
  have : (0 : ℚ) ≤ (RandomizeDuration t.ReloadInterval t.Ranomizer u : ℚ) := by nlinarith
  exact_mod_cast this

/-- Without jitter, along a history whose start times do not decrease from `tl` on, where
`tl` is the start time the current schedule was computed from, `nextReload` never moves
backward. -/
theorem nextReloadLog_chain (calls : List Call) (c : Cache K T) (tl : Time)
    (hi : c.timeouts.ReloadInterval > 0) (hz : c.timeouts.Ranomizer = 0)
    (hn : c.nextReload = some (tl + c.timeouts.ReloadInterval))
    (hs : (tl :: calls.map Call.start).Pairwise (fun a b => a ≤ b)) :
    List.Chain' notEarlier (c.nextReloadLog calls) := by
  induction calls generalizing c tl with
  | nil => simp [Cache.nextReloadLog]
  | cons a rest ih =>
    simp only [Cache.nextReloadLog]
    rw [List.chain'_cons']
    simp only [List.map_cons, List.pairwise_cons, List.mem_cons, forall_eq_or_imp] at hs
    obtain ⟨⟨hta, htl⟩, hrest, hpw⟩ := hs
    have htm := (reload_loadAllFunc c a.force a.start a.u).2
    cases hacc : (c.setLoading a.start a.force).2 with
    | some err =>
      have hrej := reload_of_rejected c a.force a.start a.u err hacc
      refine ⟨?_, ?_⟩
      · intro y hy
        rw [nextReloadLog_head, hrej] at hy
        simp only [Option.mem_def, Option.some.injEq] at hy
        subst hy
        exact notEarlier_refl _
      · rw [hrej]
        exact ih c tl hi hz hn (List.pairwise_cons.mpr ⟨htl, hpw⟩)
    | none =>
      have hsch := (reload_accepted_schedule c a.force a.start a.u hacc).2
      rw [if_pos hi, hz, RandomizeDuration_zero] at hsch
      refine ⟨?_, ?_⟩
      · intro y hy
        rw [nextReloadLog_head, hsch] at hy
        simp only [Option.mem_def, Option.some.injEq] at hy
        subst hy
        rw [hn]
        simp only [notEarlier]
        linarith
      · refine ih _ a.start (by rw [htm]; exact hi) (by rw [htm]; exact hz)
          (by rw [hsch, htm]) (List.pairwise_cons.mpr ⟨hrest, hpw⟩)

theorem load_aggregator (c : Cache K T) : c.load.1.aggregator = c.aggregator := by
  unfold Cache.load
  cases h : (c.loadAllFunc c.loaderCalls).err <;> simp [h]

theorem notifyDriver_aggregator (c : Cache K T) (newNext : Option Time) (err : Option Error) :
    (c.notifyDriver newNext err).cache.aggregator = c.aggregator := by
  unfold Cache.notifyDriver
  cases newNext with
  | none => simp
  | some t => cases hs : c.reloadChan.send true <;> simp

theorem reload_aggregator (c : Cache K T) (force : Bool) (start : Time) (u : ℚ) :
    (c.reload force start u).cache.aggregator = c.aggregator := by
  cases hs : (c.setLoading start force).2 with
  | some err => rw [reload_of_rejected c force start u err hs]
  | none =>
    rw [reload_of_accepted c force start u hs, notifyDriver_aggregator]
    simp only [Cache.endReload]
    exact load_aggregator _

end ScheduleLemmas

section SpecSchedule

variable {K T : Type}

/-- C6, as stated, fails: with `ReloadInterval = 10` and `Ranomizer = 1` the initial
schedule set by `initPeriodicReload` at time 0 with the largest draw is the instant 20, and a
forced reload that starts at time 1 with the smallest draw completes and stores the instant 1,
which is earlier. -/
theorem nextReload_moves_backward :
    jitterParams.check = none ∧
      (New jitterParams jitterEnv).exit = .returned none ∧
      (New jitterParams jitterEnv).cache =
        some { jitterCache with reloadChan := { buf := [true], closed := false } } ∧
      jitterCache.timeouts.ReloadInterval > 0 ∧
      jitterCache.nextReload = some 20 ∧
      (jitterCache.reload true 1 (-1)).exit = .returned none ∧
      (jitterCache.reload true 1 (-1)).cache.nextReload = some 1 ∧
      ¬ notEarlier jitterCache.nextReload (jitterCache.reload true 1 (-1)).cache.nextReload := by
  have h20 : RandomizeDuration 10 1 1 = 20 := by
    rw [RandomizeDuration_eq 10 1 1 10 (by norm_num [clampUnit])]
    rfl
  have h0 : RandomizeDuration 10 1 (-1) = 0 := by
    rw [RandomizeDuration_eq 10 1 (-1) (-10) (by norm_num [clampUnit])]
    rfl
  have h10 : RandomizeDuration 10 1 0 = 10 := by
    rw [RandomizeDuration_eq 10 1 0 0 (by norm_num [clampUnit])]
    rfl
  have hnext : (jitterCache.reload true 1 (-1)).cache.nextReload = some 1 := by
    rw [(reload_accepted_schedule jitterCache true 1 (-1) (by decide)).2, if_pos (by decide)]
    show some (1 + RandomizeDuration 10 1 (-1)) = some 1
    rw [h0]
    rfl
  refine ⟨by decide, by decide, ?_, by decide, rfl, by decide, hnext, ?_⟩
  · have hchk : jitterParams.check = none := by decide
    simp only [New, hchk]
    simp [jitterParams, sampleParams, jitterEnv, Cache.fresh, Cache.reload, Cache.setLoading,
      Cache.load, steadyLoader, Cache.newNextReloadTime, Cache.endReload, Cache.notifyDriver,
      Chan.send, Chan.make, reloadChanCap, Cache.initPeriodicReload, h20, h10, jitterCache]
  · rw [hnext]
    simp [notEarlier, jitterCache]

/-- C6, amended: with `ReloadInterval > 0` and checked timeouts, a completed unforced attempt
never stores a `nextReload` earlier than the one it replaces, whatever the jitter; and with
`Ranomizer = 0`, from the construction reload through the initial schedule of
`initPeriodicReload` and along every history of attempts, forced or not, whose start times do
not decrease, `nextReload` never moves backward. -/
theorem nextReload_not_backward_amended :
    (∀ (c : Cache K T) (t0 : Time) (u : ℚ), c.timeouts.check = none →
      c.timeouts.ReloadInterval > 0 → (c.setLoading t0 false).2 = none →
      notEarlier c.nextReload (c.reload false t0 u).cache.nextReload) ∧
    (∀ (p : Params K T) (env : NewEnv) (c0 : Cache K T) (f : LoadAllFunc K T)
      (calls : List Call),
      (New p env).exit = .returned none → (New p env).cache = some c0 →
      p.LoadAllFunc = some f → p.Timeouts.ReloadInterval > 0 → p.Timeouts.Ranomizer = 0 →
      (env.start :: env.now :: calls.map Call.start).Pairwise (fun a b => a ≤ b) →
      List.Chain' notEarlier
        (((Cache.fresh p f).reload true env.start env.u).cache.nextReload ::
          c0.nextReloadLog calls)) := by
  refine ⟨?_, ?_⟩
  · intro c t0 u hchk hi hacc
    rw [(reload_accepted_schedule c false t0 u hacc).2, if_pos hi]
    have hd := RandomizeDuration_nonneg c.timeouts u hchk hi
    cases hn : c.nextReload with
    | none => simp [notEarlier]
    | some old =>
      have hle : old ≤ t0 := by
        rw [setLoading_eq] at hacc
        by_cases hr : c.isReloading = true
        · simp [hr] at hacc
        · by_cases hlt : t0 < old
          · simp [hr, hn, hlt] at hacc
          · exact not_lt.mp hlt
      simp only [notEarlier]
      linarith
  · intro p env c0 f calls hexit hc hf hi hz hs
    obtain ⟨g, hg, _, _, rfl⟩ := New_success p env c0 hexit hc
    rw [hf] at hg
    cases hg
    have hacc := fresh_setLoading p f env.start
    have htm : ((Cache.fresh p f).reload true env.start env.u).cache.timeouts = p.Timeouts :=
      (reload_loadAllFunc _ _ _ _).2
    have h1 : ((Cache.fresh p f).reload true env.start env.u).cache.nextReload =
        some (env.start + p.Timeouts.ReloadInterval) := by
      have hft : (Cache.fresh p f).timeouts = p.Timeouts := rfl
      rw [(reload_accepted_schedule _ _ _ _ hacc).2, hft, if_pos hi, hz, RandomizeDuration_zero]
    have hne : p.Timeouts.ReloadInterval ≠ 0 := ne_of_gt hi
    have h2 : (((Cache.fresh p f).reload true env.start env.u).cache.initPeriodicReload
        env.now env.u2).1.nextReload = some (env.now + p.Timeouts.ReloadInterval) := by
      simp only [Cache.initPeriodicReload, htm, hne, if_false, hz, RandomizeDuration_zero]
    have h3 : (((Cache.fresh p f).reload true env.start env.u).cache.initPeriodicReload
        env.now env.u2).1.timeouts = p.Timeouts := by
      rw [(initPeriodicReload_frame _ _ _).2.2.2, htm]
    simp only [List.pairwise_cons, List.mem_cons, forall_eq_or_imp] at hs
    obtain ⟨⟨hsn, _⟩, hnow, hpw⟩ := hs
    rw [List.chain'_cons']
    refine ⟨?_, ?_⟩
    · intro y hy
      rw [nextReloadLog_head, h2] at hy
      simp only [Option.mem_def, Option.some.injEq] at hy
      subst hy
      rw [h1]
      simp only [notEarlier]
      linarith
    · exact nextReloadLog_chain calls _ env.now (by rw [h3]; exact hi) (by rw [h3]; exact hz)
        (by rw [h2, h3]) (List.pairwise_cons.mpr ⟨hnow, hpw⟩)

/-- C8: for parameters that pass `check` and whose loader reports an error `e` on its first
invocation, `New` returns an error and starts nothing: the error is `e` (or, when the metrics
registration fails first, the error of that registration, the loader then not being invoked);
no snapshot is published in the returned cache, whose aggregator, if any, has no wake-up
pending and ran no action; the periodic driver is not started and no subscription is made. -/
theorem New_loader_error_starts_nothing (p : Params K T) (env : NewEnv) (f : LoadAllFunc K T)
    (e : Error) (hchk : p.check = none) (hf : p.LoadAllFunc = some f)
    (he : (f 0).err = some e) :
    ((p.MetricsRegistry = true → env.metricsErr = none) →
      (New p env).exit = .returned (some e) ∧
        ∃ c, (New p env).cache = some c ∧ c.loaderCalls = 1) ∧
    (∃ err, (New p env).exit = .returned (some err)) ∧
    (∀ c, (New p env).cache = some c →
      c.data = none ∧ c.GetAll = none ∧ c.isReloading = false ∧
        ∀ a, c.aggregator = some a → a.timers = [] ∧ a.queued = false ∧ a.actions = 0) ∧
    (New p env).driverStarted = false ∧
    (New p env).subscriptions = [] := by
  have hacc := fresh_setLoading p f env.start
  have hlr : ((Cache.fresh p f).loadAllFunc (Cache.fresh p f).loaderCalls).err = some e := he
  obtain ⟨hdata, hret, _⟩ :=
    reload_loader_error_keeps_snapshot (Cache.fresh p f) true env.start env.u e hacc hlr
  have hx : ((Cache.fresh p f).reload true env.start env.u).exit = .returned (some e) :=
    hret (Or.inr ⟨rfl, Nat.lt_succ_self 0⟩)
  have hcalls : ((Cache.fresh p f).reload true env.start env.u).cache.loaderCalls = 1 := by
    rw [reload_of_accepted _ _ _ _ hacc, (notifyDriver_frame _ _ _).2.2.2.2.1]
    simp only [Cache.endReload]
    rw [(load_frame _).2.2.2.2.1]
    rfl
  have hagg : ∀ a, ((Cache.fresh p f).reload true env.start env.u).cache.aggregator = some a →
      a.timers = [] ∧ a.queued = false ∧ a.actions = 0 := by
    intro a ha
    rw [reload_aggregator] at ha
    simp only [Cache.fresh] at ha
    split_ifs at ha
    · simp only [Option.some.injEq] at ha
      subst ha
      simp [NewSimpleAggregator]
  have hidle : ((Cache.fresh p f).reload true env.start env.u).cache.isReloading = false :=
    (reload_accepted_schedule _ _ _ _ hacc).1
  cases hm : (if p.MetricsRegistry = true then env.metricsErr else none) with
  | some em =>
    have hnew : New p env =
        { cache := none, exit := .returned (some em), driverStarted := false,
          subscriptions := [] } := by
      simp only [New, hchk, hm]
    rw [hnew]
    refine ⟨?_, ⟨em, rfl⟩, by simp, rfl, rfl⟩
    intro hok
    by_cases hreg : p.MetricsRegistry = true
    · simp [hreg, hok hreg] at hm
    · simp [hreg] at hm
  | none =>
    have hnew : New p env =
        { cache := some (((Cache.fresh p f).reload true env.start env.u).cache),
          exit := .returned (some e), driverStarted := false, subscriptions := [] } := by
      simp only [New, hchk, hm, hf, hx]
    rw [hnew]
    refine ⟨fun _ => ⟨rfl, _, rfl, hcalls⟩, ⟨e, rfl⟩, ?_, rfl, rfl⟩
    intro c hc
    simp only [Option.some.injEq] at hc
    subst hc
    exact ⟨hdata, hdata, hidle, hagg⟩

end SpecSchedule

section Interleaving

variable {K T : Type}

theorem ite_eq_toNat (b : Bool) : (if b = true then 1 else 0) = b.toNat := by
  cases b <;> rfl

theorem InvalidateAll_isReloading (c : Cache K T) (nowMillis : Int) :
    (c.InvalidateAll nowMillis).cache.isReloading = c.isReloading := by
  unfold Cache.InvalidateAll
  cases c.aggregator <;> rfl

theorem countP_inFlight_created (l : List Bool) :
    (l.map (fun force => ({ force := force, phase := .created } : Attempt))).countP
      Attempt.inFlight = 0 := by
  induction l with
  | nil => rfl
  | cons b rest ih => simp [List.countP_cons, Attempt.inFlight, ih]

/-- One step of an attempt keeps the number of in-flight attempts equal to the numeric value
of `isReloading`. -/
theorem Attempt.step_count (c : Cache K T) (a : Attempt) (now : Time) (u : ℚ) (n : Nat)
    (hn : n = c.isReloading.toNat) (ha : a.inFlight.toNat ≤ n) :
    n - a.inFlight.toNat + (a.step c now u).2.inFlight.toNat =
      (a.step c now u).1.isReloading.toNat := by
  obtain ⟨force, phase⟩ := a
  cases phase with
  | created => simpa [Attempt.step, Attempt.inFlight] using hn
  | started start =>
    have hs := setLoading_eq c start force
    by_cases hr : c.isReloading = true
    · rw [if_pos hr] at hs
      simp only [Attempt.step, hs, Attempt.inFlight]
      simpa using hn
    · rw [if_neg hr] at hs
      by_cases hc : force = false ∧ ∃ n, c.nextReload = some n ∧ start < n
      · rw [if_pos hc] at hs
        simp only [Attempt.step, hs, Attempt.inFlight]
        simpa using hn
      · rw [if_neg hc] at hs
        simp only [Attempt.step, hs, Attempt.inFlight]
        simp only [Bool.not_eq_true] at hr
        simp [hn, hr]
  | loading start =>
    simp only [Attempt.step, Attempt.inFlight, Bool.toNat_true] at ha ⊢
    simp only [(load_frame c).2.1]
    omega
  | loaded start err newNext =>
    simp only [Attempt.step, Attempt.inFlight, Bool.toNat_true, Cache.endReload,
      Bool.toNat_false] at ha ⊢
    have : n ≤ 1 := by rw [hn]; exact Bool.toNat_le _
    omega
  | released err newNext =>
    have hfr := (notifyDriver_frame c newNext err).2.1
    cases hx : (c.notifyDriver newNext err).exit with
    | returned e =>
      simp only [Attempt.step, hx, Attempt.inFlight, hfr]
      simpa using hn
    | blockedOnSend e =>
      simp only [Attempt.step, hx, Attempt.inFlight]
      simpa using hn
    | panicked =>
      simp only [Attempt.step, hx, Attempt.inFlight]
      simpa using hn
  | finished err => simpa [Attempt.step, Attempt.inFlight] using hn
  | panicked => simpa [Attempt.step, Attempt.inFlight] using hn

theorem System.step_singleFlight (s : System K T) (e : Event) (h : s.SingleFlight) :
    (s.step e).SingleFlight := by
  unfold System.SingleFlight at h ⊢
  cases e with
  | spawn force =>
    simp only [System.step, List.countP_append, List.countP_cons, List.countP_nil,
      Attempt.inFlight]
    simpa using h
  | advance i now u =>
    cases hi : s.attempts[i]? with
    | none =>
      simp only [System.step, hi]
      exact h
    | some a =>
      obtain ⟨hlt, hget⟩ := List.getElem?_eq_some.mp hi
      simp only [System.step, hi]
      rw [List.countP_set _ _ _ _ hlt, hget]
      have hle := List.boole_getElem_le_countP Attempt.inFlight s.attempts i hlt
      rw [hget] at hle
      simp only [ite_eq_toNat] at hle ⊢
      exact Attempt.step_count s.cache a now u _ h hle
  | schedule now u =>
    simp only [System.step, (initPeriodicReload_frame _ _ _).2.1]
    exact h
  | receive => simpa [System.step] using h
  | close => simpa [System.step] using h
  | invalidateAll nowMillis =>
    simp only [System.step, List.countP_append, countP_inFlight_created,
      InvalidateAll_isReloading]
    simpa using h
  | timerWakes duration w =>
    simp only [System.step]
    cases ha : s.cache.aggregator with
    | none => simpa using h
    | some a =>
      simp only []
      split_ifs
      · simp only [List.countP_append, countP_inFlight_created]
        simpa using h
      · exact h

theorem System.run_singleFlight (events : List Event) (s : System K T) (h : s.SingleFlight) :
    (s.run events).SingleFlight := by
  induction events generalizing s with
  | nil => exact h
  | cons e rest ih => exact ih _ (System.step_singleFlight s e h)

theorem System.init_singleFlight (p : Params K T) (f : LoadAllFunc K T) :
    (System.init p f).SingleFlight := by
  simp [System.SingleFlight, System.init, Cache.fresh]

theorem countP_inLoader_le (l : List Attempt) :
    l.countP Attempt.inLoader ≤ l.countP Attempt.inFlight := by
  apply List.countP_mono_left
  intro a _ h
  obtain ⟨force, phase⟩ := a
  cases phase <;> simp_all [Attempt.inLoader, Attempt.inFlight]

end Interleaving

section SpecSingleFlight

variable {K T : Type}

/-- C7: in every state reached from a freshly allocated cache by any interleaving of the
steps of any number of reload attempts (forced or not) with the actions of the periodic
driver, at most one attempt is between a successful `setLoading` and its end-of-reload
critical section, exactly when `isReloading` is set; hence at most one loader invocation is
running at any time. -/
theorem single_flight (p : Params K T) (f : LoadAllFunc K T) (events : List Event) :
    ((System.init p f).run events).attempts.countP Attempt.inFlight ≤ 1 ∧
    ((System.init p f).run events).attempts.countP Attempt.inLoader ≤ 1 ∧
    ((System.init p f).run events).attempts.countP Attempt.inFlight =
      (if ((System.init p f).run events).cache.isReloading = true then 1 else 0) := by
  have h := System.run_singleFlight events _ (System.init_singleFlight p f)
  unfold System.SingleFlight at h
  have h1 : ((System.init p f).run events).attempts.countP Attempt.inFlight ≤ 1 := by
    rw [h]
    exact Bool.toNat_le _
  refine ⟨h1, le_trans (countP_inLoader_le _) h1, ?_⟩
  rw [h, ite_eq_toNat]

/-- An interleaving in which the single-flight guard acts: the second attempt calls
`setLoading` while the loader of the first runs, and is turned away. -/
theorem single_flight_sample :
    ((System.init sampleParams sampleLoader).run sampleEvents).attempts =
      [{ force := true, phase := .loading 0 },
       { force := true, phase := .finished (some .alreadyReloading) }] := by
  decide

end SpecSingleFlight

section Coherence

variable {K T : Type}

/-- The sequential `reload` is what one attempt does when it runs its steps alone. -/
theorem reload_eq_steps (c : Cache K T) (force : Bool) (start : Time) (u : ℚ) :
    (System.run { cache := c, attempts := [{ force := force, phase := .created }] }
      (List.replicate 5 (.advance 0 start u))).cache = (c.reload force start u).cache := by
  rcases hs : c.setLoading start force with ⟨c1, e⟩
  cases e with
  | some err =>
    simp [System.run, System.step, Attempt.step, hs, Cache.reload, List.replicate]
  | none =>
    simp only [System.run, System.step, Attempt.step, hs, Cache.reload, List.replicate,
      List.getElem?_cons_zero, List.set_cons_zero]
    cases hx : ((c1.load.1.endReload (c1.load.1.newNextReloadTime start u)).notifyDriver
        (c1.load.1.newNextReloadTime start u) c1.load.2.err).exit with
    | returned e => simp [hx]
    | blockedOnSend e =>
      simp only [hx]
      unfold Cache.notifyDriver at hx ⊢
      cases hn : c1.load.1.newNextReloadTime start u with
      | none => simp [hn] at hx
      | some t =>
        simp only [hn] at hx ⊢
        cases hsend : (c1.load.1.endReload (some t)).reloadChan.send true with
        | sent ch => simp [hsend] at hx
        | blocks => simp
        | panics => simp
    | panicked =>
      simp only [hx]
      unfold Cache.notifyDriver at hx ⊢
      cases hn : c1.load.1.newNextReloadTime start u with
      | none => simp [hn] at hx
      | some t =>
        simp only [hn] at hx ⊢
        cases hsend : (c1.load.1.endReload (some t)).reloadChan.send true with
        | sent ch => simp [hsend] at hx
        | blocks => simp
        | panics => simp

end Coherence

section AggregatorLemmas

theorem Milliseconds_mul (ms : Int) : Duration.Milliseconds (ms * Millisecond) = ms := by
  unfold Duration.Milliseconds Millisecond
  exact Int.mul_tdiv_cancel ms (by decide)

theorem UnixMilli_mul (ms : Int) : UnixMilli (ms * Millisecond) = ms := by
  unfold UnixMilli Millisecond
  exact Int.mul_ediv_cancel ms (by decide)

theorem wrapInt64_of_range (x : Int) (h1 : -9223372036854775808 ≤ x)
    (h2 : x < 9223372036854775808) : wrapInt64 x = x := by
  unfold wrapInt64
  omega

/-- The `int64` computation of `flushAfterDuration` is exact for a positive difference of
at most `flushMs` milliseconds, `flushMs` being the milliseconds of a `time.Duration`. -/
theorem flushAfterDuration_exact (W t flushMs : Int) (h1 : 0 < W - t) (h2 : W - t ≤ flushMs)
    (hfit : flushMs * Millisecond < 9223372036854775808) :
    wrapInt64 (wrapInt64 (W - t) * Millisecond) = (W - t) * Millisecond := by
  unfold Millisecond at hfit ⊢
  unfold wrapInt64
  omega

theorem mul_Millisecond_le (a b : Int) : a * Millisecond ≤ b * Millisecond ↔ a ≤ b := by
  unfold Millisecond
  constructor <;> intro h <;> omega

theorem wakeUntil_nil (tl : Timeline) (t : Time) (h : tl.sleepers = []) :
    tl.wakeUntil t = tl := by
  unfold Timeline.wakeUntil
  rw [h]
  rfl

theorem wakeUntil_single (tl : Timeline) (t : Time) (s : Sleeper) (h : tl.sleepers = [s]) :
    tl.wakeUntil t = if s.deadline ≤ t then tl.wake s else tl := by
  unfold Timeline.wakeUntil
  rw [h]
  simp only [Timeline.wakeList]

theorem wake_single (tl : Timeline) (s : Sleeper) (h : tl.sleepers = [s]) :
    (tl.wake s).log = s.deadline :: tl.log ∧ (tl.wake s).sleepers = [] ∧
      (tl.wake s).agg.blockUntilMillis =
        UnixMilli s.deadline + Duration.Milliseconds tl.agg.flushInterval ∧
      (tl.wake s).agg.queued = false ∧
      (tl.wake s).agg.flushInterval = tl.agg.flushInterval := by
  simp [Timeline.wake, SimpleAggregator.startAggregationTimer, h]

/-- After the wake-ups due at the millisecond `t`, the time line is settled at `t`, nobody
is left who is due at `t`, and waking again changes nothing. -/
theorem wakeUntil_settled (flushMs now t : Int) (tl : Timeline) (hf : 0 < flushMs)
    (h : tl.Settled flushMs now) (hnow : now ≤ t) :
    (tl.wakeUntil (t * Millisecond)).Settled flushMs t ∧
      (∀ s ∈ (tl.wakeUntil (t * Millisecond)).sleepers, t * Millisecond < s.deadline) ∧
      (tl.wakeUntil (t * Millisecond)).wakeUntil (t * Millisecond) =
        tl.wakeUntil (t * Millisecond) := by
  obtain ⟨hfl, hch, hshape⟩ := h
  rcases hshape with ⟨hb, hlog, hsl, hq⟩ | ⟨last, rest, hlog, h0, hle, hb, hq⟩
  · rw [wakeUntil_nil tl _ hsl]
    refine ⟨⟨hfl, hch, Or.inl ⟨hb, hlog, hsl, hq⟩⟩, ?_, wakeUntil_nil tl _ hsl⟩
    simp [hsl]
  · rcases hq with ⟨hq, hsl⟩ | ⟨hq, d, hsl⟩
    · rw [wakeUntil_nil tl _ hsl]
      refine ⟨⟨hfl, hch, Or.inr ⟨last, rest, hlog, h0, le_trans hle hnow, hb,
        Or.inl ⟨hq, hsl⟩⟩⟩, ?_, wakeUntil_nil tl _ hsl⟩
      simp [hsl]
    · rw [wakeUntil_single tl _ _ hsl]
      by_cases hd : last + flushMs ≤ t
      · have hd' : (last + flushMs) * Millisecond ≤ t * Millisecond :=
          (mul_Millisecond_le _ _).mpr hd
        simp only [hd', if_true]
        obtain ⟨w1, w2, w3, w4, w5⟩ := wake_single tl _ hsl
        simp only [hfl, Milliseconds_mul, UnixMilli_mul] at w3
        refine ⟨⟨by rw [w5, hfl], ?_, Or.inr ⟨last + flushMs, tl.log, w1, by linarith, hd, w3,
          Or.inl ⟨w4, w2⟩⟩⟩, ?_, wakeUntil_nil _ _ w2⟩
        · rw [w1, hlog, List.chain'_cons]
          rw [hlog] at hch
          refine ⟨?_, hch⟩
          show last * Millisecond + flushMs * Millisecond ≤ (last + flushMs) * Millisecond
          rw [add_mul]
        · simp [w2]
      · have hd' : ¬ (last + flushMs) * Millisecond ≤ t * Millisecond := fun hc =>
          hd ((mul_Millisecond_le _ _).mp hc)
        simp only [hd', if_false]
        refine ⟨⟨hfl, hch, Or.inr ⟨last, rest, hlog, h0, le_trans hle hnow, hb,
          Or.inr ⟨hq, d, hsl⟩⟩⟩, ?_, ?_⟩
        · intro s hs
          rw [hsl] at hs
          simp only [List.mem_singleton] at hs
          subst hs
          exact not_le.mp hd'
        · rw [wakeUntil_single tl _ _ hsl]
          simp [hd']

theorem notify_eq_of_awake (tl : Timeline) (t : Time)
    (h : (tl.wakeUntil t).wakeUntil t = tl.wakeUntil t) :
    tl.notify t = (tl.wakeUntil t).notify t := by
  simp only [Timeline.notify, h]

theorem Notify_idle (a : SimpleAggregator) (now : Int)
    (h : a.blockUntilMillis = 0 ∨ a.blockUntilMillis ≤ now) :
    a.Notify now =
      { a with blockUntilMillis := now + Duration.Milliseconds a.flushInterval
               actions := a.actions + 1 } := by
  simp only [SimpleAggregator.Notify, h, if_true]

theorem Notify_queue (a : SimpleAggregator) (now : Int)
    (h : ¬ (a.blockUntilMillis = 0 ∨ a.blockUntilMillis ≤ now)) (hq : a.queued = false) :
    a.Notify now =
      { a with queued := true
               timers := a.timers ++
                 [wrapInt64 (wrapInt64 (a.blockUntilMillis - now) * Millisecond)] } := by
  simp [SimpleAggregator.Notify, h, hq]

theorem Notify_discard (a : SimpleAggregator) (now : Int)
    (h : ¬ (a.blockUntilMillis = 0 ∨ a.blockUntilMillis ≤ now)) (hq : a.queued = true) :
    a.Notify now = a := by
  obtain ⟨fl, bl, q, ti, ac⟩ := a
  simp only at hq
  subst hq
  simp [SimpleAggregator.Notify, h]

/-- A call of `Notify` at the whole millisecond `t` on a time line that is settled at `t`
with nobody due: outside a window it invokes the action at `t`; inside a window it invokes
nothing and leaves the pending flag set with one goroutine waiting for the end of the
window. -/
theorem notify_of_awake (flushMs t : Int) (w : Timeline) (hf : 0 < flushMs)
    (hfit : flushMs * Millisecond < 9223372036854775808) (h0 : 0 ≤ t)
    (hs : w.Settled flushMs t) (haw : ∀ s ∈ w.sleepers, t * Millisecond < s.deadline)
    (hw : w.wakeUntil (t * Millisecond) = w) :
    (w.notify (t * Millisecond)).Settled flushMs t ∧
      (w.windowActive (t * Millisecond) →
        (w.notify (t * Millisecond)).log = w.log ∧
          (w.notify (t * Millisecond)).agg.blockUntilMillis = w.agg.blockUntilMillis ∧
          (w.notify (t * Millisecond)).agg.queued = true ∧
          ∃ d, (w.notify (t * Millisecond)).sleepers =
            [{ deadline := w.agg.blockUntilMillis * Millisecond, duration := d }]) ∧
      (¬ w.windowActive (t * Millisecond) →
        (w.notify (t * Millisecond)).log = (t * Millisecond) :: w.log ∧
          (w.notify (t * Millisecond)).sleepers = []) := by
  obtain ⟨hfl, hch, hshape⟩ := hs
  unfold Timeline.windowActive
  rw [UnixMilli_mul]
  rcases hshape with ⟨hb, hlog, hsl, hq⟩ | ⟨last, rest, hlog, hl0, hle, hb, hq⟩
  · have hidle : w.agg.blockUntilMillis = 0 ∨ w.agg.blockUntilMillis ≤ t := Or.inl hb
    have hy : w.notify (t * Millisecond) =
        { agg := { w.agg with blockUntilMillis := t + flushMs, actions := w.agg.actions + 1 }
          sleepers := []
          log := [t * Millisecond] } := by
      simp [Timeline.notify, hw, UnixMilli_mul, Notify_idle _ _ hidle, hfl, Milliseconds_mul,
        hsl, hlog]
    rw [hy]
    exact ⟨⟨hfl, by simp, Or.inr ⟨t, [], rfl, h0, le_refl _, rfl, Or.inl ⟨hq, rfl⟩⟩⟩,
      fun hact => absurd hidle hact, fun _ => ⟨by rw [hlog], rfl⟩⟩
  · by_cases hidle : w.agg.blockUntilMillis = 0 ∨ w.agg.blockUntilMillis ≤ t
    · have hdue : last + flushMs ≤ t := by
        rcases hidle with h | h
        · rw [hb] at h
          linarith
        · rw [hb] at h
          exact h
      have hq' : w.agg.queued = false ∧ w.sleepers = [] := by
        rcases hq with hq | ⟨_, d, hsl⟩
        · exact hq
        · have := haw _ (by rw [hsl]; exact List.mem_singleton.mpr rfl)
          simp only at this
          exact absurd ((mul_Millisecond_le _ _).mpr hdue) (not_le.mpr this)
      have hy : w.notify (t * Millisecond) =
          { agg := { w.agg with blockUntilMillis := t + flushMs, actions := w.agg.actions + 1 }
            sleepers := []
            log := (t * Millisecond) :: w.log } := by
        simp [Timeline.notify, hw, UnixMilli_mul, Notify_idle _ _ hidle, hfl, Milliseconds_mul,
          hq'.2]
      rw [hy]
      refine ⟨⟨hfl, ?_, Or.inr ⟨t, w.log, rfl, h0, le_refl _, rfl, Or.inl ⟨hq'.1, rfl⟩⟩⟩,
        fun hact => absurd hidle hact, fun _ => ⟨rfl, rfl⟩⟩
      show List.Chain' _ ((t * Millisecond) :: w.log)
      rw [hlog, List.chain'_cons]
      rw [hlog] at hch
      refine ⟨?_, hch⟩
      show last * Millisecond + flushMs * Millisecond ≤ t * Millisecond
      rw [← add_mul]
      exact (mul_Millisecond_le _ _).mpr hdue
    · have hlt : t < w.agg.blockUntilMillis := by
        by_contra hc
        exact hidle (Or.inr (not_lt.mp hc))
      have hexact : wrapInt64 (wrapInt64 (w.agg.blockUntilMillis - t) * Millisecond) =
          (w.agg.blockUntilMillis - t) * Millisecond :=
        flushAfterDuration_exact _ _ flushMs (by linarith) (by rw [hb]; linarith) hfit
      have hdl : t * Millisecond + (w.agg.blockUntilMillis - t) * Millisecond =
          w.agg.blockUntilMillis * Millisecond := by ring
      have hmax : max ((w.agg.blockUntilMillis - t) * Millisecond) 0 =
          (w.agg.blockUntilMillis - t) * Millisecond :=
        max_eq_left (le_of_lt (Int.mul_pos (by linarith) (by decide)))
      rcases hq with ⟨hq, hsl⟩ | ⟨hq, d, hsl⟩
      · have hy : w.notify (t * Millisecond) =
            { agg := { w.agg with
                queued := true
                timers := w.agg.timers ++ [(w.agg.blockUntilMillis - t) * Millisecond] }
              sleepers := [{ deadline := w.agg.blockUntilMillis * Millisecond
                             duration := (w.agg.blockUntilMillis - t) * Millisecond }]
              log := w.log } := by
          simp [Timeline.notify, hw, UnixMilli_mul, Notify_queue _ _ hidle hq, hsl, hexact, hmax,
            hdl]
        rw [hy]
        refine ⟨⟨hfl, hch, Or.inr ⟨last, rest, hlog, hl0, hle, hb,
            Or.inr ⟨rfl, (w.agg.blockUntilMillis - t) * Millisecond, ?_⟩⟩⟩,
          fun _ => ⟨rfl, rfl, rfl, (w.agg.blockUntilMillis - t) * Millisecond, rfl⟩,
          fun hact => absurd (not_not.mp hact) hidle⟩
        show [_] = [_]
        rw [hb]
      · have hy : w.notify (t * Millisecond) = w := by
          obtain ⟨agg, sl, lg⟩ := w
          simp only at hsl hq hidle hw
          simp [Timeline.notify, hw, UnixMilli_mul, Notify_discard _ _ hidle hq]
        rw [hy]
        refine ⟨⟨hfl, hch, Or.inr ⟨last, rest, hlog, hl0, hle, hb, Or.inr ⟨hq, d, hsl⟩⟩⟩,
          fun _ => ⟨rfl, rfl, hq, d, ?_⟩, fun hact => absurd (not_not.mp hact) hidle⟩
        rw [hsl, hb]

theorem Settled_mono (flushMs now t : Int) (tl : Timeline) (h : tl.Settled flushMs now)
    (hnow : now ≤ t) : tl.Settled flushMs t := by
  obtain ⟨hfl, hch, hshape⟩ := h
  refine ⟨hfl, hch, ?_⟩
  rcases hshape with h | ⟨last, rest, hlog, h0, hle, hrest⟩
  · exact Or.inl h
  · exact Or.inr ⟨last, rest, hlog, h0, le_trans hle hnow, hrest⟩

theorem fresh_settled (flushMs : Int) :
    (Timeline.fresh (flushMs * Millisecond)).Settled flushMs 0 :=
  ⟨rfl, List.chain'_nil, Or.inl ⟨rfl, rfl, rfl, rfl⟩⟩

theorem notify_settled (flushMs now t : Int) (tl : Timeline) (hf : 0 < flushMs)
    (hfit : flushMs * Millisecond < 9223372036854775808)
    (h : tl.Settled flushMs now) (hnow : now ≤ t) (h0 : 0 ≤ t) :
    (tl.notify (t * Millisecond)).Settled flushMs t := by
  obtain ⟨hs, haw, hw⟩ := wakeUntil_settled flushMs now t tl hf h hnow
  rw [notify_eq_of_awake tl _ hw]
  exact (notify_of_awake flushMs t _ hf hfit h0 hs haw hw).1

/-- After calls of `Notify` at whole milliseconds that do not decrease, the time line is
settled. -/
theorem run_settled (flushMs : Int) (hf : 0 < flushMs)
    (hfit : flushMs * Millisecond < 9223372036854775808) (times : List Int) (tl : Timeline)
    (now : Int) (h : tl.Settled flushMs now) (h0 : 0 ≤ now)
    (hs : (now :: times).Pairwise (fun a b => a ≤ b)) (t : Int) (hnow : now ≤ t)
    (ht : ∀ s ∈ times, s ≤ t) : (tl.run (wholeMillis times)).Settled flushMs t := by
  induction times generalizing tl now with
  | nil => exact Settled_mono flushMs now t tl h hnow
  | cons a rest ih =>
    simp only [List.pairwise_cons, List.mem_cons, forall_eq_or_imp] at hs ht
    obtain ⟨⟨hna, _⟩, hrest, hpw⟩ := hs
    have ha0 : 0 ≤ a := le_trans h0 hna
    exact ih (tl.notify (a * Millisecond)) a
      (notify_settled flushMs now a tl hf hfit h hna ha0) ha0
      (List.pairwise_cons.mpr ⟨hrest, hpw⟩) ht.1 ht.2

/-- Before the end of the window nobody is due. -/
theorem wakeUntil_before_window (flushMs now s : Int) (x : Timeline)
    (h : x.Settled flushMs now) (hs : s < x.agg.blockUntilMillis) :
    x.wakeUntil (s * Millisecond) = x := by
  obtain ⟨_, _, hshape⟩ := h
  rcases hshape with ⟨_, _, hsl, _⟩ | ⟨last, rest, _, _, _, hb, hq⟩
  · exact wakeUntil_nil x _ hsl
  · rcases hq with ⟨_, hsl⟩ | ⟨_, d, hsl⟩
    · exact wakeUntil_nil x _ hsl
    · rw [wakeUntil_single x _ _ hsl, if_neg]
      intro hc
      have := (mul_Millisecond_le _ _).mp hc
      rw [← hb] at this
      exact absurd hs (not_lt.mpr this)

/-- A call of `Notify` inside the window that ends at `W` invokes nothing and leaves one
goroutine waiting for `W`. -/
theorem notify_in_window (flushMs now s W : Int) (x : Timeline) (hf : 0 < flushMs)
    (hfit : flushMs * Millisecond < 9223372036854775808)
    (h : x.Settled flushMs now) (hnow : now ≤ s) (h0 : 0 ≤ s)
    (hW : x.agg.blockUntilMillis = W) (hW0 : W ≠ 0) (hs : s < W) :
    (x.notify (s * Millisecond)).Settled flushMs s ∧
      (x.notify (s * Millisecond)).log = x.log ∧
      (x.notify (s * Millisecond)).agg.blockUntilMillis = W ∧
      (x.notify (s * Millisecond)).agg.queued = true ∧
      ∃ d, (x.notify (s * Millisecond)).sleepers =
        [{ deadline := W * Millisecond, duration := d }] := by
  have hw : x.wakeUntil (s * Millisecond) = x :=
    wakeUntil_before_window flushMs now s x h (by rw [hW]; exact hs)
  obtain ⟨hset, haw, _⟩ := wakeUntil_settled flushMs now s x hf h hnow
  rw [hw] at hset haw
  obtain ⟨h1, h2, _⟩ := notify_of_awake flushMs s x hf hfit h0 hset haw hw
  have hact : x.windowActive (s * Millisecond) := by
    unfold Timeline.windowActive
    rw [hW, UnixMilli_mul]
    intro hc
    rcases hc with hc | hc
    · exact hW0 hc
    · exact absurd hs (not_lt.mpr hc)
  obtain ⟨a, b, c, d, e⟩ := h2 hact
  exact ⟨h1, a, by rw [b, hW], c, d, by rw [e, hW]⟩

/-- All the calls of `Notify` of a batch that lies inside the window ending at `W` invoke
nothing, and leave one goroutine waiting for `W`. -/
theorem run_in_window (flushMs W : Int) (hf : 0 < flushMs)
    (hfit : flushMs * Millisecond < 9223372036854775808) (hW0 : W ≠ 0) (batch : List Int)
    (x : Timeline) (now : Int) (h : x.Settled flushMs now) (h0 : 0 ≤ now)
    (hW : x.agg.blockUntilMillis = W) (hs : (now :: batch).Pairwise (fun a b => a ≤ b))
    (hin : ∀ s ∈ batch, s < W) (hne : batch ≠ []) :
    (x.run (wholeMillis batch)).log = x.log ∧ (x.run (wholeMillis batch)).agg.queued = true ∧
      ∃ d, (x.run (wholeMillis batch)).sleepers =
        [{ deadline := W * Millisecond, duration := d }] := by
  induction batch generalizing x now with
  | nil => exact absurd rfl hne
  | cons b rest ih =>
    simp only [List.pairwise_cons, List.mem_cons, forall_eq_or_imp] at hs hin
    obtain ⟨⟨hnb, _⟩, hrest, hpw⟩ := hs
    have hb0 : 0 ≤ b := le_trans h0 hnb
    obtain ⟨n1, n2, n3, n4, n5⟩ :=
      notify_in_window flushMs now b W x hf hfit h hnb hb0 hW hW0 hin.1
    cases hr : rest with
    | nil => exact ⟨n2, n4, n5⟩
    | cons r rest2 =>
      have := ih (x.notify (b * Millisecond)) b n1 hb0 n3
        (List.pairwise_cons.mpr ⟨hrest, hpw⟩) hin.2 (by rw [hr]; exact List.cons_ne_nil _ _)
      rw [hr] at this
      show ((x.notify (b * Millisecond)).run (wholeMillis (r :: rest2))).log = x.log ∧ _
      rw [← n2]
      exact this

end AggregatorLemmas

section SpecAggregator

theorem Milliseconds_le (flush : Int) (h : flush < 9223372036854775808) :
    Duration.Milliseconds flush ≤ 9223372036854 := by
  unfold Duration.Milliseconds
  by_cases h0 : 0 ≤ flush
  · rw [Int.tdiv_eq_ediv h0 (by decide)]
    omega
  · have hneg : flush = -(-flush) := by ring
    have hpos : (0 : Int) ≤ -flush := by omega
    have hdiv : (0 : Int) ≤ (-flush).tdiv 1000000 := Int.tdiv_nonneg hpos (by decide)
    rw [hneg, Int.neg_tdiv]
    omega

/-- C11, as stated, fails: in the state whose window ends `10^13` milliseconds after the
clock reading (pending flag clear), `Notify` sets the flag and starts one
`startAggregationTimer`, but the `int64` product `(blockUntil - now) * time.Millisecond`
wraps around and the duration it passes is negative, not strictly positive. -/
theorem Notify_duration_wraps :
    ¬ (farAggregator.blockUntilMillis = 0 ∨ farAggregator.blockUntilMillis ≤ 0) ∧
      farAggregator.queued = false ∧
      farAggregator.blockUntilMillis - 0 = 10000000000000 ∧
      (farAggregator.Notify 0).queued = true ∧
      (farAggregator.Notify 0).actions = farAggregator.actions ∧
      (farAggregator.Notify 0).timers = [-8446744073709551616] ∧
      ¬ ∀ d ∈ (farAggregator.Notify 0).timers, (0 : Int) < d := by
  refine ⟨by decide, by decide, by decide, by decide, by decide, by decide, by decide⟩

/-- C11, amended: for every aggregator state and clock reading `now` (in milliseconds),
`Notify` does the following. If `blockUntil` is 0 or not after `now`, it sets `blockUntil =
now + flushInterval` (the interval in whole milliseconds), invokes the action once and changes
nothing else, the pending flag included. Otherwise, with the pending flag clear, it sets the
flag, starts one `startAggregationTimer` and invokes nothing; the duration it passes is the
`int64` product, which is `blockUntil - now` milliseconds and strictly positive whenever
`blockUntil - now` is at most 9223372036854 milliseconds, as it is when `blockUntil` was set
at a clock reading not after `now`. Otherwise it changes nothing. -/
theorem Notify_behaviour_amended (a : SimpleAggregator) (now : Int) :
    ((a.blockUntilMillis = 0 ∨ a.blockUntilMillis ≤ now) →
      a.Notify now =
          { a with blockUntilMillis := now + Duration.Milliseconds a.flushInterval
                   actions := a.actions + 1 } ∧
        (a.Notify now).queued = a.queued ∧ (a.Notify now).timers = a.timers ∧
        (a.Notify now).actions = a.actions + 1 ∧
        ∀ ms, a.flushInterval = ms * Millisecond → (a.Notify now).blockUntilMillis = now + ms) ∧
    (¬ (a.blockUntilMillis = 0 ∨ a.blockUntilMillis ≤ now) → a.queued = false →
      a.Notify now =
          { a with queued := true
                   timers := a.timers ++
                     [wrapInt64 (wrapInt64 (a.blockUntilMillis - now) * Millisecond)] } ∧
        (a.Notify now).actions = a.actions ∧
        (a.Notify now).blockUntilMillis = a.blockUntilMillis ∧
        (a.blockUntilMillis - now ≤ 9223372036854 →
          wrapInt64 (wrapInt64 (a.blockUntilMillis - now) * Millisecond) =
              (a.blockUntilMillis - now) * Millisecond ∧
            0 < (a.blockUntilMillis - now) * Millisecond) ∧
        (∀ (now0 : Int) (flush : Duration),
          a.blockUntilMillis = now0 + Duration.Milliseconds flush → now0 ≤ now →
          flush < 9223372036854775808 → a.blockUntilMillis - now ≤ 9223372036854)) ∧
    (¬ (a.blockUntilMillis = 0 ∨ a.blockUntilMillis ≤ now) → a.queued = true →
      a.Notify now = a) := by
  refine ⟨?_, ?_, ?_⟩
  · intro h
    rw [Notify_idle a now h]
    refine ⟨rfl, rfl, rfl, rfl, ?_⟩
    intro ms hms
    show now + Duration.Milliseconds a.flushInterval = now + ms
    rw [hms, Milliseconds_mul]
  · intro h hq
    rw [Notify_queue a now h hq]
    have hlt : now < a.blockUntilMillis := by
      by_contra hc
      exact h (Or.inr (not_lt.mp hc))
    refine ⟨rfl, rfl, rfl, ?_, ?_⟩
    · intro hle
      have hpos : 0 < a.blockUntilMillis - now := by linarith
      refine ⟨flushAfterDuration_exact _ _ 9223372036854 hpos hle (by decide), ?_⟩
      exact Int.mul_pos hpos (by decide)
    · intro now0 flush hb hn hfl
      have := Milliseconds_le flush hfl
      rw [hb]
      linarith
  · intro h hq
    exact Notify_discard a now h hq

/-- On instants that are whole milliseconds the aggregator debounces: for a flush interval
of `flushMs > 0` whole milliseconds that fits a `time.Duration`, and calls of `Notify` on a
new aggregator at whole milliseconds (from 0 on) that do not decrease, each wake-up firing
exactly at its deadline and before a `Notify` of the same instant: consecutive action
invocations are at least the flush interval apart; a `Notify` that arrives when no window is
active invokes the action at once; the calls of a batch that lies inside one active window
invoke nothing before the end `W` of the window and together produce exactly one invocation,
at `W`. On the whole milliseconds of `testAggregatorTiming` the counts are 1, 1, 2, 2, 3, 3,
4, 4 and 4. -/
theorem debounce_on_whole_milliseconds (flushMs : Int) (hf : 0 < flushMs)
    (hfit : flushMs * Millisecond < 9223372036854775808) (times : List Int)
    (hsorted : (0 :: times).Pairwise (fun a b => a ≤ b)) :
    List.Chain' (spaced (flushMs * Millisecond))
      ((Timeline.fresh (flushMs * Millisecond)).run (wholeMillis times)).log ∧
    (∀ t, (∀ s ∈ times, s ≤ t) → 0 ≤ t →
      ¬ (((Timeline.fresh (flushMs * Millisecond)).run (wholeMillis times)).wakeUntil
          (t * Millisecond)).windowActive (t * Millisecond) →
      (((Timeline.fresh (flushMs * Millisecond)).run (wholeMillis times)).notify
          (t * Millisecond)).log =
        (t * Millisecond) ::
          (((Timeline.fresh (flushMs * Millisecond)).run (wholeMillis times)).wakeUntil
            (t * Millisecond)).log) ∧
    (∀ t batch W, (∀ s ∈ times, s ≤ t) → 0 ≤ t → (t :: batch).Pairwise (fun a b => a ≤ b) →
      (((Timeline.fresh (flushMs * Millisecond)).run (wholeMillis times)).wakeUntil
          (t * Millisecond)).windowActive (t * Millisecond) →
      (((Timeline.fresh (flushMs * Millisecond)).run (wholeMillis times)).wakeUntil
          (t * Millisecond)).agg.blockUntilMillis = W →
      (∀ s ∈ batch, s < W) →
      (((Timeline.fresh (flushMs * Millisecond)).run (wholeMillis times)).run
            (wholeMillis (t :: batch))).log =
          (((Timeline.fresh (flushMs * Millisecond)).run (wholeMillis times)).wakeUntil
            (t * Millisecond)).log ∧
        ((((Timeline.fresh (flushMs * Millisecond)).run (wholeMillis times)).run
            (wholeMillis (t :: batch))).wakeUntil (W * Millisecond)).log =
          (W * Millisecond) ::
            (((Timeline.fresh (flushMs * Millisecond)).run (wholeMillis times)).wakeUntil
              (t * Millisecond)).log ∧
        ((((Timeline.fresh (flushMs * Millisecond)).run (wholeMillis times)).run
            (wholeMillis (t :: batch))).wakeUntil (W * Millisecond)).sleepers = []) ∧
    ((testTimeline.run (wholeMillis [0])).countAt (100 * Millisecond) = 1 ∧
      (testTimeline.run (wholeMillis [0, 2100, 2100, 2100])).countAt (2200 * Millisecond) = 1 ∧
      (testTimeline.run (wholeMillis [0, 2100, 2100, 2100])).countAt (4200 * Millisecond) = 2 ∧
      (testTimeline.run (wholeMillis [0, 2100, 2100, 2100, 4200])).countAt
        (5300 * Millisecond) = 2 ∧
      (testTimeline.run (wholeMillis [0, 2100, 2100, 2100, 4200])).countAt
        (7300 * Millisecond) = 3 ∧
      (testTimeline.run (wholeMillis [0, 2100, 2100, 2100, 4200])).countAt
        (11300 * Millisecond) = 3 ∧
      (testTimeline.run (wholeMillis [0, 2100, 2100, 2100, 4200, 11300])).countAt
        (11300 * Millisecond) = 4 ∧
      (testTimeline.run testTimes).countAt (11400 * Millisecond) = 4 ∧
      (testTimeline.run testTimes).countAt (12500 * Millisecond) = 4) := by
  have hfin : ∀ t, (∀ s ∈ times, s ≤ t) → 0 ≤ t →
      ((Timeline.fresh (flushMs * Millisecond)).run (wholeMillis times)).Settled flushMs t :=
    fun t ht h0 =>
      run_settled flushMs hf hfit times _ 0 (fresh_settled flushMs) (le_refl 0) hsorted t h0 ht
  refine ⟨?_, ?_, ?_, by decide⟩
  · have hmax : ∃ t, (∀ s ∈ times, s ≤ t) ∧ 0 ≤ t := by
      refine ⟨(times.map Int.natAbs).sum, ?_, by positivity⟩
      intro s hs
      have h1 : s.natAbs ≤ (times.map Int.natAbs).sum :=
        List.single_le_sum (fun _ _ => Nat.zero_le _) _ (List.mem_map_of_mem _ hs)
      have h2 : s ≤ (s.natAbs : Int) := Int.le_natAbs
      have h3 : (s.natAbs : Int) ≤ ((times.map Int.natAbs).sum : Int) := by exact_mod_cast h1
      exact le_trans h2 h3
    obtain ⟨t, ht, h0⟩ := hmax
    exact (hfin t ht h0).2.1
  · intro t ht h0 hidle
    obtain ⟨hs, haw, hw⟩ := wakeUntil_settled flushMs t t _ hf (hfin t ht h0) (le_refl t)
    rw [notify_eq_of_awake _ _ hw]
    exact ((notify_of_awake flushMs t _ hf hfit h0 hs haw hw).2.2 hidle).1
  · intro t batch W ht h0 hpw hact hW hin
    obtain ⟨hs, haw, hw⟩ := wakeUntil_settled flushMs t t _ hf (hfin t ht h0) (le_refl t)
    have hrun : ((Timeline.fresh (flushMs * Millisecond)).run (wholeMillis times)).run
          (wholeMillis (t :: batch)) =
        (((Timeline.fresh (flushMs * Millisecond)).run (wholeMillis times)).wakeUntil
          (t * Millisecond)).run (wholeMillis (t :: batch)) := by
      have hn := notify_eq_of_awake
        ((Timeline.fresh (flushMs * Millisecond)).run (wholeMillis times)) (t * Millisecond) hw
      simp only [wholeMillis, List.map_cons, Timeline.run] at hn ⊢
      rw [hn]
    have hW0 : W ≠ 0 ∧ t < W := by
      unfold Timeline.windowActive at hact
      rw [hW, UnixMilli_mul] at hact
      constructor
      · intro hc
        exact hact (Or.inl hc)
      · by_contra hc
        exact hact (Or.inr (not_lt.mp hc))
    have hpw2 : (t :: t :: batch).Pairwise (fun a b => a ≤ b) := by
      rw [List.pairwise_cons]
      refine ⟨?_, hpw⟩
      intro s hs'
      rcases List.mem_cons.mp hs' with h | h
      · rw [h]
      · exact (List.pairwise_cons.mp hpw).1 s h
    have hin2 : ∀ s ∈ t :: batch, s < W := by
      intro s hs'
      rcases List.mem_cons.mp hs' with h | h
      · rw [h]
        exact hW0.2
      · exact hin s h
    obtain ⟨r1, r2, d, r3⟩ := run_in_window flushMs W hf hfit hW0.1 (t :: batch) _ t hs h0 hW
      hpw2 hin2 (List.cons_ne_nil _ _)
    rw [hrun]
    refine ⟨r1, ?_, ?_⟩
    · rw [wakeUntil_single _ _ _ r3, if_pos (le_refl _), (wake_single _ _ r3).1, r1]
    · rw [wakeUntil_single _ _ _ r3, if_pos (le_refl _)]
      exact (wake_single _ _ r3).2.1

/-- C12: at the failing input the claim does not hold. With a flush interval of 3 s and
calls of `Notify` at 0 ms, 2100.9 ms and 3000.5 ms, the second call reads the clock as 2100
and starts a timer of 900 ms, which elapses at 3000.9 ms; the third call reads 3000, finds
the window ended and invokes the action at 3000.5 ms; the timer then fires exactly at its
deadline and invokes the action again: two consecutive invocations 0.4 ms apart. -/
theorem debounce_breaks_after_window_end :
    testTimeline.agg.flushInterval = 3 * Second ∧
      (testTimeline.run [0, 2100900000]).log = [0] ∧
      (testTimeline.run [0, 2100900000]).sleepers =
        [{ deadline := 3000900000, duration := 900 * Millisecond }] ∧
      (testTimeline.run offsetTimes).log = [3000500000, 0] ∧
      ((testTimeline.run offsetTimes).wakeUntil 3000900000).log =
        [3000900000, 3000500000, 0] ∧
      (testTimeline.run offsetTimes).countAt 3000900000 = 3 ∧
      ¬ List.Chain' (spaced (3 * Second))
        ((testTimeline.run offsetTimes).wakeUntil 3000900000).log ∧
      ¬ spaced (3 * Second) 3000900000 3000500000 := by
  have hlog : ((testTimeline.run offsetTimes).wakeUntil 3000900000).log =
      [3000900000, 3000500000, 0] := by decide
  have hgap : ¬ spaced (3 * Second) 3000900000 3000500000 := by decide
  refine ⟨by decide, by decide, by decide, by decide, hlog, by decide, ?_, hgap⟩
  rw [hlog]
  intro h
  exact hgap (List.chain'_cons.mp h).1

/-- C13: a waiting `startAggregationTimer` whose `select` ends through `ctx.Done()` invokes
nothing and leaves `blockUntil` and the pending flag as they were; once the context is
cancelled at an instant `t`, the wake-ups that were not yet due never fire, and without
further calls of `Notify` the number of action invocations is the same at every later
instant. On the time line of `testAggregatorContext` the count stays 1. -/
theorem cancelled_wakeup_never_fires :
    (∀ (a : SimpleAggregator) (d : Duration),
      (a.startAggregationTimer d .cancelled).actions = a.actions ∧
        (a.startAggregationTimer d .cancelled).blockUntilMillis = a.blockUntilMillis ∧
        (a.startAggregationTimer d .cancelled).queued = a.queued ∧
        (a.startAggregationTimer d .cancelled).flushInterval = a.flushInterval) ∧
    (∀ (tl : Timeline) (t T : Time),
      (tl.cancel t).log = (tl.wakeUntil t).log ∧
        (tl.cancel t).agg.blockUntilMillis = (tl.wakeUntil t).agg.blockUntilMillis ∧
        (tl.cancel t).agg.queued = (tl.wakeUntil t).agg.queued ∧
        (tl.cancel t).sleepers = [] ∧
        (tl.cancel t).countAt T = (tl.wakeUntil t).log.length) ∧
    ((testTimeline.run contextTimes).countAt (2 * Second) = 1 ∧
      (testTimeline.run contextTimes).sleepers.length = 1 ∧
      ((testTimeline.run contextTimes).cancel (2 * Second)).countAt (7 * Second) = 1) := by
  have hfold : ∀ (l : List Sleeper) (a : SimpleAggregator),
      (l.foldl (fun a s => a.startAggregationTimer s.duration .cancelled) a).actions
          = a.actions ∧
        (l.foldl (fun a s => a.startAggregationTimer s.duration .cancelled) a).blockUntilMillis
          = a.blockUntilMillis ∧
        (l.foldl (fun a s => a.startAggregationTimer s.duration .cancelled) a).queued
          = a.queued := by
    intro l
    induction l with
    | nil => intro a; exact ⟨rfl, rfl, rfl⟩
    | cons s rest ih =>
      intro a
      simp only [List.foldl_cons]
      obtain ⟨h1, h2, h3⟩ := ih (a.startAggregationTimer s.duration .cancelled)
      exact ⟨h1, h2, h3⟩
  refine ⟨fun a d => ⟨rfl, rfl, rfl, rfl⟩, ?_, by decide⟩
  intro tl t T
  obtain ⟨h1, h2, h3⟩ := hfold (tl.wakeUntil t).sleepers (tl.wakeUntil t).agg
  have hlog : (tl.cancel t).log = (tl.wakeUntil t).log := by
    simp only [Timeline.cancel, h1, Nat.sub_self, List.replicate, List.nil_append]
  refine ⟨hlog, h2, h3, rfl, ?_⟩
  unfold Timeline.countAt
  rw [wakeUntil_nil _ T rfl, hlog]

/-- C15: a `startAggregationTimer` whose wait elapses at the clock reading `now2` sets
`blockUntil = now2 + flushInterval` (the interval in whole milliseconds), clears the pending
flag and invokes the action exactly once; on a time line the invocation is logged at the
deadline of the sleeper. -/
theorem elapsed_wakeup_fires_once :
    (∀ (a : SimpleAggregator) (d : Duration) (now2 : Int),
      (a.startAggregationTimer d (.elapsed now2)).blockUntilMillis =
          now2 + Duration.Milliseconds a.flushInterval ∧
        (a.startAggregationTimer d (.elapsed now2)).queued = false ∧
        (a.startAggregationTimer d (.elapsed now2)).actions = a.actions + 1 ∧
        (a.startAggregationTimer d (.elapsed now2)).flushInterval = a.flushInterval ∧
        ∀ ms, a.flushInterval = ms * Millisecond →
          (a.startAggregationTimer d (.elapsed now2)).blockUntilMillis = now2 + ms) ∧
    (∀ (tl : Timeline) (s : Sleeper), (tl.wake s).log = s.deadline :: tl.log) := by
  refine ⟨?_, ?_⟩
  · intro a d now2
    refine ⟨rfl, rfl, rfl, rfl, ?_⟩
    intro ms hms
    show now2 + Duration.Milliseconds a.flushInterval = now2 + ms
    rw [hms, Milliseconds_mul]
  · intro tl s
    simp [Timeline.wake, SimpleAggregator.startAggregationTimer]

end SpecAggregator

section DriverLemmas

variable {K T : Type}

theorem initPeriodicReload_aggregator (c : Cache K T) (now : Time) (u : ℚ) :
    (c.initPeriodicReload now u).1.aggregator = c.aggregator := by
  unfold Cache.initPeriodicReload
  by_cases h : c.timeouts.ReloadInterval = 0 <;> simp [h]

/-- The aggregator of the cache that `New` returns. -/
theorem New_aggregator (p : Params K T) (env : NewEnv) (c0 : Cache K T)
    (hc : (New p env).cache = some c0) :
    c0.aggregator =
      if p.Timeouts.ReloadDelay > 0 then some (NewSimpleAggregator p.Timeouts.ReloadDelay)
      else none := by
  unfold New at hc
  cases hchk : p.check with
  | some err => simp [hchk] at hc
  | none =>
    simp only [hchk] at hc
    cases hm : (if p.MetricsRegistry = true then env.metricsErr else none) with
    | some err => simp [hm] at hc
    | none =>
      simp only [hm] at hc
      cases hf : p.LoadAllFunc with
      | none => simp [hf] at hc
      | some f =>
        simp only [hf] at hc
        have hfresh : ((Cache.fresh p f).reload true env.start env.u).cache.aggregator =
            if p.Timeouts.ReloadDelay > 0 then
              some (NewSimpleAggregator p.Timeouts.ReloadDelay)
            else none := by
          rw [reload_aggregator]
          rfl
        cases hx : ((Cache.fresh p f).reload true env.start env.u).exit with
        | returned e =>
          cases e with
          | none =>
            simp only [hx, Option.some.injEq] at hc
            rw [← hc, initPeriodicReload_aggregator, hfresh]
          | some err =>
            simp only [hx, Option.some.injEq] at hc
            rw [← hc, hfresh]
        | blockedOnSend e =>
          simp only [hx, Option.some.injEq] at hc
          rw [← hc, hfresh]
        | panicked =>
          simp only [hx, Option.some.injEq] at hc
          rw [← hc, hfresh]

/-- Once the re-arm channel is closed, every call of `reload` that passes `setLoading` on a
cache with a periodic schedule panics in its re-arm send. -/
theorem reload_panics_on_closed (c : Cache K T) (force : Bool) (start : Time) (u : ℚ)
    (hi : c.timeouts.ReloadInterval > 0) (hcl : c.reloadChan.closed = true)
    (hacc : (c.setLoading start force).2 = none) :
    (c.reload force start u).exit = .panicked := by
  rw [reload_of_accepted c force start u hacc]
  simp only [Cache.notifyDriver, Cache.endReload, Cache.newNextReloadTime, (load_frame _).1,
    (load_frame _).2.2.2.1]
  simp [hi, Chan.send, hcl]

/-- After the cancellation, a driver at the top of its loop whose channel is already closed
can pick `ctx.Done()` again, and then panics in `close`. -/
theorem driver_second_close_panics (d : Driver K T) (now : Time) (u : ℚ) (deadline : Time)
    (hs : d.state = .looping) (hctx : d.ctxDone = true)
    (hn : d.cache.nextReload = some deadline) (hcl : d.cache.reloadChan.closed = true) :
    d.ready deadline now .done = true ∧
      d.iterate .done now u = some { d with state := .panicked, closes := d.closes + 1 } := by
  refine ⟨hctx, ?_⟩
  simp [Driver.iterate, hs, hn, Driver.ready, hctx, Chan.close, hcl]

end DriverLemmas

section SpecShutdown

variable {K T : Type}

/-- C14: the cache that `New` returns has an aggregator exactly when `ReloadDelay > 0`, a new
one with that flush interval, and the action bound to it is one call `reload(true)`. With an
aggregator, `InvalidateAll` is its `Notify` and nothing else: it starts no reload itself, and
the system gets one forced attempt per action that `Notify` invokes. Without one it leaves the
state as it is and starts exactly one `go c.reload(true)`; so with `ReloadDelay = 0` every
call adds one forced attempt. -/
theorem InvalidateAll_routes :
    (∀ (p : Params K T) (env : NewEnv) (c0 : Cache K T), (New p env).cache = some c0 →
      (c0.aggregator.isSome = true ↔ p.Timeouts.ReloadDelay > 0) ∧
        (∀ a, c0.aggregator = some a → a = NewSimpleAggregator p.Timeouts.ReloadDelay) ∧
        (p.Timeouts.ReloadDelay = 0 → c0.aggregator = none)) ∧
    aggregatedFunc = [true] ∧
    (∀ (c : Cache K T) (a : SimpleAggregator) (now : Int), c.aggregator = some a →
      c.InvalidateAll now =
        { cache := { c with aggregator := some (a.Notify now) }, reloads := [] }) ∧
    (∀ (c : Cache K T) (now : Int), c.aggregator = none →
      c.InvalidateAll now = { cache := c, reloads := [true] }) ∧
    (∀ (s : System K T) (a : SimpleAggregator) (now : Int), s.cache.aggregator = some a →
      (s.step (.invalidateAll now)).attempts =
        s.attempts ++ List.replicate ((a.Notify now).actions - a.actions)
          { force := true, phase := .created }) ∧
    (∀ (s : System K T) (now : Int), s.cache.aggregator = none →
      (s.step (.invalidateAll now)).cache = s.cache ∧
        (s.step (.invalidateAll now)).attempts =
          s.attempts ++ [{ force := true, phase := .created }]) := by
  refine ⟨?_, rfl, ?_, ?_, ?_, ?_⟩
  · intro p env c0 hc
    have h := New_aggregator p env c0 hc
    by_cases hd : p.Timeouts.ReloadDelay > 0
    · rw [if_pos hd] at h
      refine ⟨by simp [h, hd], ?_, ?_⟩
      · intro a ha
        rw [h] at ha
        exact (Option.some.inj ha).symm
      · intro h0
        rw [h0] at hd
        exact absurd hd (by decide)
    · rw [if_neg hd] at h
      refine ⟨by simp [h, hd], ?_, fun _ => h⟩
      intro a ha
      rw [h] at ha
      exact absurd ha (by simp)
  · intro c a now ha
    simp [Cache.InvalidateAll, ha]
  · intro c now ha
    simp [Cache.InvalidateAll, ha]
  · intro s a now ha
    simp only [System.step, Cache.InvalidateAll, ha, Cache.actions, List.nil_append, actionCalls,
      aggregatedFunc]
    congr 1
    generalize (a.Notify now).actions - a.actions = n
    induction n with
    | zero => rfl
    | succ n ih =>
      simp only [List.replicate_succ, List.flatten_cons, List.map_append, List.map_cons,
        List.map_nil, List.singleton_append]
      rw [ih]
  · intro s now ha
    simp [System.step, Cache.InvalidateAll, ha, Cache.actions, actionCalls]

/-- C16: at the failing schedule the driver does not stop cleanly: after the cancellation
the `ctx.Done()` case stays ready, and when the `select` picks it in two consecutive
iterations the second one executes `close` on the channel it already closed and panics. (When
the second and third iterations pick the receive instead, the driver returns after one
`close`.) -/
theorem driver_double_close_panics :
    cancelledDriver.cache.timeouts.ReloadInterval > 0 ∧
      cancelledDriver.ctxDone = true ∧
      cancelledDriver.state = .looping ∧
      ((cancelledDriver.run [(.done, 0, 0)]).map
        (fun d => (d.state, d.closes, d.cache.reloadChan.closed, d.ctxDone))
          = some (.looping, 1, true, true)) ∧
      ((cancelledDriver.run [(.done, 0, 0), (.done, 0, 0)]).map (fun d => (d.state, d.closes))
          = some (.panicked, 2)) ∧
      ((cancelledDriver.run [(.done, 0, 0), (.receive, 0, 0), (.receive, 0, 0)]).map
        (fun d => (d.state, d.closes)) = some (.stopped, 1)) := by
  refine ⟨by decide, by decide, by decide, by decide, by decide, by decide⟩

/-- C17: at the failing input the claim does not hold: after the periodic driver has closed
the re-arm channel on cancellation, `InvalidateAll` on a cache without aggregator starts a
forced reload, which passes `setLoading`, loads, and then sends the re-arm signal on the
closed channel: the attempt ends in a panic. -/
theorem reload_after_close_panics :
    cancelledCache.timeouts.ReloadInterval > 0 ∧
      cancelledCache.reloadChan.closed = true ∧
      (cancelledCache.InvalidateAll 0).reloads = [true] ∧
      (cancelledCache.setLoading 1 true).2 = none ∧
      (cancelledCache.reload true 1 0).exit = .panicked ∧
      (System.run { cache := cancelledCache, attempts := [] }
        [.invalidateAll 0, .advance 0 1 0, .advance 0 1 0, .advance 0 1 0, .advance 0 1 0,
          .advance 0 1 0]).attempts = [{ force := true, phase := .panicked }] := by
  refine ⟨by decide, by decide, by decide, by decide, by decide, by decide⟩

end SpecShutdown

section Witnesses

/-- After `New sampleParams`, a forced reload whose loader fails and a forced reload whose
loader returns the multiplier 30: `Get 1` is 30 and `Get 7` is `nil`. -/
theorem get_returns_most_recent_load_witness :
    (sampleBuilt.runCalls sampleCalls).GetAll =
        some ((sampleBuilt.lastLoaded sampleCalls).getD (sampleLoader 0).entries) ∧
      (sampleBuilt.runCalls sampleCalls).Get 1 = some (some 30) ∧
      (sampleBuilt.runCalls sampleCalls).Get 7 = some none :=
  have h := get_returns_most_recent_load sampleParams sampleEnv sampleBuilt sampleLoader
    sampleCalls (by decide) (by rfl) rfl
  ⟨h.1, h.2.1 1 (some 30) (by decide), h.2.2.1 7 (by decide)⟩

/-- On `sampleCache`, scheduled for 100: a forced attempt at 5 is accepted, an unforced one
is too early, and any attempt is turned away while a reload is in flight. -/
theorem setLoading_accepts_iff_witness :
    ((sampleCache.setLoading 5 true).2 = none ∧
        (sampleCache.setLoading 5 true).1.isReloading = true) ∧
      (sampleCache.setLoading 5 false).2 = some .cannotReloadYet ∧
      (({ sampleCache with isReloading := true } : Cache Nat Nat).setLoading 5 true).2 =
        some .alreadyReloading :=
  ⟨((setLoading_accepts_iff sampleCache 5 true).1).2 ⟨rfl, Or.inl rfl⟩,
   ((setLoading_accepts_iff sampleCache 5 false).2.2.2 rfl rfl ⟨100, rfl, by decide⟩).1,
   ((setLoading_accepts_iff { sampleCache with isReloading := true } 5 true).2.2.1 rfl).1⟩

/-- An unforced reload of `sampleCache` at 5 is rejected without a loader invocation. -/
theorem reload_rejected_changes_nothing_witness :
    (sampleCache.reload false 5 0).exit = .returned (some .cannotReloadYet) ∧
      (sampleCache.reload false 5 0).cache.loaderCalls = 1 :=
  have h := reload_rejected_changes_nothing sampleCache false 5 0
    (Or.inr ⟨rfl, 100, rfl, by decide⟩)
  ⟨h.1, h.2.2.1⟩

/-- A forced reload of `sampleCache` at 5 ends idle and scheduled for 15. -/
theorem reload_accepted_end_state_witness :
    (sampleCache.reload true 5 0).cache.isReloading = false ∧
      (sampleCache.reload true 5 0).cache.nextReload = some 15 :=
  have h := reload_accepted_end_state sampleCache true 5 0 (by decide) (by decide)
  ⟨h.1, (h.2.1 (by decide)).2.2.2 rfl⟩

/-- An unforced reload of `sampleCache` at its scheduled time, and the history of
`sampleCalls` after `New sampleParams`, do not move `nextReload` backward. -/
theorem nextReload_not_backward_amended_witness :
    notEarlier sampleCache.nextReload (sampleCache.reload false 100 0).cache.nextReload ∧
      List.Chain' notEarlier
        (((Cache.fresh sampleParams sampleLoader).reload true 0 0).cache.nextReload ::
          sampleBuilt.nextReloadLog sampleCalls) :=
  ⟨(@nextReload_not_backward_amended Nat Nat).1 sampleCache 100 0 (by decide) (by decide)
      (by decide),
   (@nextReload_not_backward_amended Nat Nat).2 sampleParams sampleEnv sampleBuilt sampleLoader
      sampleCalls (by decide) (by rfl) rfl (by decide) rfl (by decide)⟩

/-- With a loader that always fails, `New` returns the loader error and starts nothing. -/
theorem New_loader_error_starts_nothing_witness :
    (New failingParams sampleEnv).exit = .returned (some (.other "load failed")) ∧
      (New failingParams sampleEnv).driverStarted = false ∧
      (New failingParams sampleEnv).subscriptions = [] :=
  have h := New_loader_error_starts_nothing failingParams sampleEnv failingLoader
    (.other "load failed") (by decide) rfl rfl
  ⟨(h.1 (fun _ => rfl)).1, h.2.2.2.1, h.2.2.2.2⟩

/-- A delay of 8s under an interval of 10s passes `check`. -/
theorem Timeouts_check_accepts_iff_witness :
    ({ ReloadInterval := 10 * Second, ReloadDelay := 8 * Second, Ranomizer := 0 } :
      Timeouts).check = none :=
  Timeouts_check_accepts_iff.2.1 (8 * Second) (by simp)

/-- On `windowedAggregator`, whose window ends at 3000: a `Notify` at 4000 invokes the
action, a `Notify` at 2100 starts one timer for the positive duration of 900 ms and invokes
nothing. -/
theorem Notify_behaviour_amended_witness :
    (windowedAggregator.Notify 4000).actions = 2 ∧
      (windowedAggregator.Notify 4000).blockUntilMillis = 7000 ∧
      (windowedAggregator.Notify 2100).actions = 1 ∧
      wrapInt64 (wrapInt64 (3000 - 2100) * Millisecond) = (3000 - 2100) * Millisecond ∧
      0 < (3000 - 2100) * Millisecond :=
  have h1 := (Notify_behaviour_amended windowedAggregator 4000).1 (Or.inr (by decide))
  have h2 := (Notify_behaviour_amended windowedAggregator 2100).2.1 (by decide) rfl
  ⟨h1.2.2.2.1, h1.2.2.2.2 3000 (by decide), h2.2.1, (h2.2.2.2.1 (by decide)).1,
    (h2.2.2.2.1 (by decide)).2⟩

/-- The cache of `New sampleParams` (delay 1s) has an aggregator; on `sampleCache`, which has
none, `InvalidateAll` adds one forced attempt. -/
theorem InvalidateAll_routes_witness :
    (sampleBuilt.aggregator.isSome = true ↔ sampleParams.Timeouts.ReloadDelay > 0) ∧
      (System.step { cache := sampleCache, attempts := [] } (.invalidateAll 0)).attempts =
        [] ++ [{ force := true, phase := .created }] :=
  ⟨((@InvalidateAll_routes Nat Nat).1 sampleParams sampleEnv sampleBuilt (by rfl)).1,
   ((@InvalidateAll_routes Nat Nat).2.2.2.2.2 { cache := sampleCache, attempts := [] } 0
      rfl).2⟩

end Witnesses

end Codebook
